import Mathlib

/-!
# A/B slot selection (`common/android_ab.c`)

A shallow embedding of the Android A/B boot-control logic of
`src/common/android_ab.c` and theorems about it.

Modelling conventions.

* `struct android_slot_metadata`, `struct android_bootloader_control`, the
  constants `ANDROID_BOOT_CTRL_MAGIC` and `ANDROID_BOOT_CTRL_VERSION` and the
  macros `ANDROID_BOOT_SLOT_NAME` and `DIV_ROUND_UP` are declared in headers
  outside `android_ab.c`.  The two constants and the two byte sizes used by
  the store adapter are fields of `ab_config`, so every theorem holds for all
  their values.
* Struct fields are natural numbers.  A C array is a list whose length is the
  array size, so `ARRAY_SIZE(abc->slot_info)` is `abc.slot_info.length`, and
  an index below that length is in bounds.
* `int` values (`slot`, the result of the comparison, the return value) are
  integers; the fields are narrow unsigned values promoted to `int`, so the
  subtractions of `android_ab_compare_slots` are exact.  The `char` stored at
  line 248 is taken modulo 256.  The assignment of line 42 and 204 stores the
  array size in `nb_slot`, a field wide enough for it.
* The buffer read from the device is modelled by the view the code takes of it
  through the cast of line 159: the control structure followed by the
  remaining bytes of the block range (`abc_data_block`).
* `crc32`, `blk_dread`, `blk_dwrite` and `malloc` are external to the file and
  are parameters.
-/

namespace AndroidAB

/-! ## Data model -/

/-- Per-slot record `struct android_slot_metadata`; the field names are those
the source reads and writes (lines 32-38, 137-146, 210-238). -/
structure android_slot_metadata where
  priority : Nat
  tries_remaining : Nat
  successful_boot : Nat
  verity_corrupted : Nat
  reserved : Nat
  deriving DecidableEq, Repr, Inhabited

/-- Control block `struct android_bootloader_control`; the field names are
those the source reads and writes (lines 39-48, 170-258). -/
structure android_bootloader_control where
  magic : Nat
  version : Nat
  nb_slot : Nat
  slot_info : List android_slot_metadata
  reserved0 : List Nat
  slot_suffix : List Nat
  reserved1 : List Nat
  crc32_le : Nat
  deriving DecidableEq, Repr, Inhabited

/-- The buffer the store adapter carries: "the boot_control struct and the
extra bytes after it up to the nearest block boundary" (lines 102-103). -/
structure abc_data_block where
  abc : android_bootloader_control
  tail : List Nat
  deriving DecidableEq, Repr, Inhabited

/-- Partition descriptor `disk_partition_t`: first block, number of blocks and
block size, the three fields the source uses. -/
structure disk_partition_t where
  start : Nat
  size : Nat
  blksz : Nat
  deriving DecidableEq, Repr, Inhabited

/-- Constants of the missing headers: the two identification constants, the
byte offset `offsetof(struct android_bootloader_message_ab, slot_suffix)` of
the control block inside the partition and `sizeof(struct
android_bootloader_control)`. -/
structure ab_config where
  ANDROID_BOOT_CTRL_MAGIC : Nat
  ANDROID_BOOT_CTRL_VERSION : Nat
  abc_offset_bytes : Nat
  abc_sizeof : Nat
  deriving DecidableEq, Repr, Inhabited

/-- External block layer and allocator.  `blk_dread dev start blkcnt` gives the
number of blocks read and the buffer contents; `blk_dwrite dev start blkcnt
buf` gives the number of blocks written and the device afterwards; `malloc n`
tells whether the allocation of `n` bytes succeeds. -/
structure blk_ops (Dev : Type) where
  blk_dread : Dev → Nat → Nat → Nat × abc_data_block
  blk_dwrite : Dev → Nat → Nat → abc_data_block → Nat × Dev
  malloc : Nat → Bool

/-! ## Byte image used by the checksum -/

/-- Four little-endian bytes of a 32-bit field. -/
def le32 (n : Nat) : List Nat :=
  [n % 256, n / 256 % 256, n / 65536 % 256, n / 16777216 % 256]

/-- Modelled from the spec: the wire image of one slot record (section 6:
`priority(1) tries_remaining(1) successful_boot(1) verity_corrupted(1)
reserved(4)`); the header declaring the struct is outside `android_ab.c`. -/
def slot_bytes (s : android_slot_metadata) : List Nat :=
  [s.priority % 256, s.tries_remaining % 256, s.successful_boot % 256,
    s.verity_corrupted % 256] ++ le32 s.reserved

/-- Modelled from the spec: the bytes of the control block that precede the
`crc32_le` field, in the order of section 6 (`magic(4) | version(4) |
nb_slot(4) | slot_info[capacity] | reserved0 | slot_suffix(4) | reserved1`);
the header declaring the struct is outside `android_ab.c`.  This is the range
`[abc, abc + offsetof(typeof(*abc), crc32_le))` of line 21. -/
def bytes_before_crc (abc : android_bootloader_control) : List Nat :=
  le32 abc.magic ++ le32 abc.version ++ le32 abc.nb_slot ++
    (abc.slot_info.map slot_bytes).flatten ++
    abc.reserved0 ++ abc.slot_suffix ++ abc.reserved1

/-- Lines 18-22: `crc32(0, abc, offsetof(typeof(*abc), crc32_le))`. -/
def android_boot_control_compute_crc (crc32 : Nat → List Nat → Nat)
    (abc : android_bootloader_control) : Nat :=
  crc32 0 (bytes_before_crc abc)

/-! ## Default initialisation -/

/-- Lines 32-38: the record every slot is reset to. -/
def default_metadata : android_slot_metadata :=
  { priority := 15, tries_remaining := 7, successful_boot := 0,
    verity_corrupted := 0, reserved := 0 }

/-- Lines 44-46: `for (i = 0; i < abc->nb_slot; ++i) abc->slot_info[i] =
metadata;`. -/
def default_slots (nb_slot : Nat) (slot_info : List android_slot_metadata) :
    List android_slot_metadata :=
  (List.range nb_slot).foldl (fun l i => l.set i default_metadata) slot_info

/-- Lines 29-49. -/
def android_boot_control_default (cfg : ab_config) (crc32 : Nat → List Nat → Nat)
    (abc : android_bootloader_control) : android_bootloader_control :=
  let abc := { abc with slot_suffix := [97, 0, 0, 0] }
  let abc := { abc with magic := cfg.ANDROID_BOOT_CTRL_MAGIC }
  let abc := { abc with version := cfg.ANDROID_BOOT_CTRL_VERSION }
  let abc := { abc with nb_slot := abc.slot_info.length }
  let abc := { abc with reserved0 := List.replicate abc.reserved0.length 0 }
  let abc := { abc with slot_info := default_slots abc.nb_slot abc.slot_info }
  let abc := { abc with reserved1 := List.replicate abc.reserved1.length 0 }
  { abc with crc32_le := android_boot_control_compute_crc crc32 abc }

/-! ## Store adapter -/

/-- Modelled from the spec: the macro `DIV_ROUND_UP` ("the number of whole
blocks needed to cover the control structure"), `(n + d - 1) / d`; its header
is outside `android_ab.c`. -/
def DIV_ROUND_UP (n d : Nat) : Nat := (n + d - 1) / d

/-- Lines 61-96.  `none` is the `NULL` result.  Once line 70 is passed the block
size divides the (small, positive) control-block offset, so the `ulong`
computations do not wrap.  A block size of 0, by which the C code would
divide, is outside the model. -/
def android_boot_control_create_from_disk {Dev : Type} (cfg : ab_config)
    (ops : blk_ops Dev) (dev_desc : Dev) (part_info : disk_partition_t) :
    Option abc_data_block :=
  let abc_offset := cfg.abc_offset_bytes
  if abc_offset % part_info.blksz ≠ 0 then none
  else
    let abc_offset := abc_offset / part_info.blksz
    let abc_blocks := DIV_ROUND_UP cfg.abc_sizeof part_info.blksz
    if abc_offset + abc_blocks > part_info.size then none
    else if ops.malloc (abc_blocks * part_info.blksz) = false then none
    else
      let r := ops.blk_dread dev_desc (part_info.start + abc_offset) abc_blocks
      if r.1 ≠ abc_blocks then none
      else some r.2

/-- Lines 108-124: the return value (0 or -1) and the device afterwards. -/
def android_boot_control_store {Dev : Type} (cfg : ab_config) (ops : blk_ops Dev)
    (abc_data_block : abc_data_block) (dev_desc : Dev)
    (part_info : disk_partition_t) : Int × Dev :=
  let abc_offset := cfg.abc_offset_bytes / part_info.blksz
  let abc_blocks := DIV_ROUND_UP cfg.abc_sizeof part_info.blksz
  let r := ops.blk_dwrite dev_desc (part_info.start + abc_offset) abc_blocks
    abc_data_block
  if r.1 ≠ abc_blocks then (-1, r.2) else (0, r.2)

/-! ## Slot comparison and selection -/

/-- Lines 133-149. -/
def android_ab_compare_slots (a b : android_slot_metadata) : Int :=
  if a.priority ≠ b.priority then (b.priority : Int) - (a.priority : Int)
  else if a.successful_boot ≠ b.successful_boot then
    (b.successful_boot : Int) - (a.successful_boot : Int)
  else if a.tries_remaining ≠ b.tries_remaining then
    (b.tries_remaining : Int) - (a.tries_remaining : Int)
  else 0

/-- The array read `abc->slot_info[i]`. -/
def slot_at (abc : android_bootloader_control) (i : Nat) : android_slot_metadata :=
  abc.slot_info.getD i default

/-- Lines 210-231: one iteration of the selection loop, from the value of
`slot` before it to the value after it. -/
def select_step (abc : android_bootloader_control) (slot : Int) (i : Nat) : Int :=
  if (slot_at abc i).verity_corrupted ≠ 0 ∨ (slot_at abc i).tries_remaining = 0 then
    slot
  else if slot < 0 then (i : Int)
  else if android_ab_compare_slots (slot_at abc i) (slot_at abc slot.toNat) < 0 then
    (i : Int)
  else slot

/-- Lines 208-232: `slot = -1; for (i = 0; i < abc->nb_slot; ++i) ...`. -/
def select_loop (abc : android_bootloader_control) : Int :=
  (List.range abc.nb_slot).foldl (select_step abc) (-1)

/-- Line 238: `tries_remaining--` on one record.  The record decremented is a
candidate of the loop, whose `tries_remaining` is not 0, so the unsigned
decrement does not wrap. -/
def tries_decrement (s : android_slot_metadata) : android_slot_metadata :=
  { s with tries_remaining := s.tries_remaining - 1 }

/-- Modelled from the spec: the macro `ANDROID_BOOT_SLOT_NAME` ("slot index i
maps to the i-th letter starting at 'a'"); its header is outside
`android_ab.c`. -/
def ANDROID_BOOT_SLOT_NAME (slot : Int) : Int := 97 + slot

/-- What a call leaves behind besides the device: the return value, the buffer
as it is when it is freed, and whether `android_boot_control_store` was called
on that buffer (line 259). -/
structure select_result where
  ret : Int
  buf : abc_data_block
  stored : Bool
  deriving DecidableEq, Repr, Inhabited

/-- Lines 208-265 of `android_ab_select`: the loop, the decrement, the suffix
update, the checksum of the block to store and the return value, from the
block `abc` and the value of `store_needed` that reach line 208.  The store of
line 259 is recorded in `stored` and carried out by `android_ab_select`. -/
def android_ab_select_tail (crc32 : Nat → List Nat → Nat) (buf : abc_data_block)
    (abc : android_bootloader_control) (store_needed : Bool) : select_result :=
  let slot := select_loop abc
  let dec := decide (slot ≥ 0 ∧ (slot_at abc slot.toNat).successful_boot = 0)
  let abc :=
    if dec then
      { abc with slot_info :=
          (abc.slot_info.set slot.toNat (tries_decrement (slot_at abc slot.toNat))) }
    else abc
  let store_needed := if dec then true else store_needed
  let slot_suffix := [(ANDROID_BOOT_SLOT_NAME slot % 256).toNat, 0, 0, 0]
  let upd := decide (slot ≥ 0 ∧ abc.slot_suffix ≠ slot_suffix)
  let abc := if upd then { abc with slot_suffix := slot_suffix } else abc
  let store_needed := if upd then true else store_needed
  let abc :=
    if store_needed then
      { abc with crc32_le := android_boot_control_compute_crc crc32 abc }
    else abc
  { ret := if slot < 0 then -1 else slot, buf := { buf with abc := abc },
    stored := store_needed }

/-- Lines 169-265 of `android_ab_select`: everything after the load, on the
loaded buffer; lines 208-265 are `android_ab_select_tail`. -/
def android_ab_select_loaded (cfg : ab_config) (crc32 : Nat → List Nat → Nat)
    (buf : abc_data_block) : select_result :=
  let abc := buf.abc
  let store_needed := false
  let crc32_le := android_boot_control_compute_crc crc32 abc
  let mismatch := decide (abc.crc32_le ≠ crc32_le)
  let abc := if mismatch then android_boot_control_default cfg crc32 abc else abc
  let store_needed := if mismatch then true else store_needed
  if abc.magic ≠ cfg.ANDROID_BOOT_CTRL_MAGIC then
    { ret := -1, buf := { buf with abc := abc }, stored := false }
  else if abc.version > cfg.ANDROID_BOOT_CTRL_VERSION then
    { ret := -1, buf := { buf with abc := abc }, stored := false }
  else
    let clamp := decide (abc.nb_slot > abc.slot_info.length)
    let abc := if clamp then { abc with nb_slot := abc.slot_info.length } else abc
    let store_needed := if clamp then true else store_needed
    android_ab_select_tail crc32 buf abc store_needed

/-- Lines 151-266: the return value and the device afterwards. -/
def android_ab_select {Dev : Type} (cfg : ab_config) (crc32 : Nat → List Nat → Nat)
    (ops : blk_ops Dev) (dev_desc : Dev) (part_info : disk_partition_t) : Int × Dev :=
  match android_boot_control_create_from_disk cfg ops dev_desc part_info with
  | none => (-1, dev_desc)
  | some buf =>
    let r := android_ab_select_loaded cfg crc32 buf
    if r.stored then
      (r.ret, (android_boot_control_store cfg ops r.buf dev_desc part_info).2)
    else (r.ret, dev_desc)

/-! ## Vocabulary of the statements -/

/-- A slot the loop of lines 209-218 does not skip once it reaches its index:
it is not marked corrupted and it has tries left. -/
def eligible (abc : android_bootloader_control) (i : Nat) : Prop :=
  (slot_at abc i).verity_corrupted = 0 ∧ 0 < (slot_at abc i).tries_remaining

instance (abc : android_bootloader_control) (i : Nat) : Decidable (eligible abc i) := by
  unfold eligible; infer_instance

/-- A bootable slot of the loaded block: its index is below `nb_slot` as
clamped to the array size (lines 203-206), it is not marked corrupted and it
has tries left. -/
def bootable (abc : android_bootloader_control) (i : Nat) : Prop :=
  i < abc.nb_slot ∧ i < abc.slot_info.length ∧ eligible abc i

instance (abc : android_bootloader_control) (i : Nat) : Decidable (bootable abc i) := by
  unfold bootable; infer_instance

/-- The ranking in the words of the specification: `a` ranks strictly higher
than `b` when it has the higher priority, or the same priority and the higher
`successful_boot`, or the same of both and the higher `tries_remaining`. -/
def ranks_higher (a b : android_slot_metadata) : Prop :=
  a.priority > b.priority ∨
    (a.priority = b.priority ∧
      (a.successful_boot > b.successful_boot ∨
        (a.successful_boot = b.successful_boot ∧
          a.tries_remaining > b.tries_remaining)))

instance (a b : android_slot_metadata) : Decidable (ranks_higher a b) := by
  unfold ranks_higher; infer_instance

/-- The checksum test of line 170 passes. -/
def crc_valid (crc32 : Nat → List Nat → Nat) (abc : android_bootloader_control) : Prop :=
  abc.crc32_le = android_boot_control_compute_crc crc32 abc

instance (crc32 : Nat → List Nat → Nat) (abc : android_bootloader_control) :
    Decidable (crc_valid crc32 abc) := by
  unfold crc_valid; infer_instance

/-- The block passes lines 170-189: checksum, magic and version. -/
def valid_block (cfg : ab_config) (crc32 : Nat → List Nat → Nat)
    (abc : android_bootloader_control) : Prop :=
  crc_valid crc32 abc ∧ abc.magic = cfg.ANDROID_BOOT_CTRL_MAGIC ∧
    abc.version ≤ cfg.ANDROID_BOOT_CTRL_VERSION

instance (cfg : ab_config) (crc32 : Nat → List Nat → Nat)
    (abc : android_bootloader_control) : Decidable (valid_block cfg crc32 abc) := by
  unfold valid_block; infer_instance

/-! ## The stages of `android_ab_select`, named for the proofs -/

/-- The value of `slot` after the first `n` iterations of the loop. -/
def loop_upto (abc : android_bootloader_control) (n : Nat) : Int :=
  (List.range n).foldl (select_step abc) (-1)

/-- What holds of `slot` after `n` iterations: it is -1 and no slot below `n`
is eligible, or it is the least index among the eligible slots below `n` that
no eligible slot below `n` outranks. -/
def loop_inv (abc : android_bootloader_control) (n : Nat) (r : Int) : Prop :=
  (r = -1 ∧ ∀ j, j < n → ¬ eligible abc j) ∨
  (∃ k : Nat, r = (k : Int) ∧ k < n ∧ eligible abc k ∧
    (∀ j, j < n → eligible abc j → ¬ ranks_higher (slot_at abc j) (slot_at abc k)) ∧
    (∀ j, j < k → eligible abc j → ranks_higher (slot_at abc k) (slot_at abc j)))

/-- Lines 203-206 on their own: `nb_slot` cut down to the array size. -/
def clamped (abc : android_bootloader_control) : android_bootloader_control :=
  if abc.nb_slot > abc.slot_info.length then { abc with nb_slot := abc.slot_info.length }
  else abc

/-- The four bytes of lines 247-248 for the slot chosen. -/
def suffix_of (slot : Int) : List Nat := [(ANDROID_BOOT_SLOT_NAME slot % 256).toNat, 0, 0, 0]

/-- Lines 234-240 on their own: the block after the decrement, for the value
of `slot` the loop left. -/
def decremented (abc : android_bootloader_control) (slot : Int) : android_bootloader_control :=
  if slot ≥ 0 ∧ (slot_at abc slot.toNat).successful_boot = 0 then
    { abc with slot_info :=
        (abc.slot_info.set slot.toNat (tries_decrement (slot_at abc slot.toNat))) }
  else abc

/-- Lines 242-255 on their own: the block after the suffix update. -/
def suffixed (abc : android_bootloader_control) (slot : Int) : android_bootloader_control :=
  if slot ≥ 0 ∧ abc.slot_suffix ≠ suffix_of slot then { abc with slot_suffix := suffix_of slot }
  else abc

/-- Lines 208-265 in stages; `tail_eq_select_from` shows it is
`android_ab_select_tail`. -/
def select_from (crc32 : Nat → List Nat → Nat) (buf : abc_data_block)
    (abc : android_bootloader_control) (store_needed : Bool) : select_result :=
  let slot := select_loop abc
  let abc1 := decremented abc slot
  let abc2 := suffixed abc1 slot
  let store := store_needed || decide (slot ≥ 0 ∧ (slot_at abc slot.toNat).successful_boot = 0)
    || decide (slot ≥ 0 ∧ abc1.slot_suffix ≠ suffix_of slot)
  { ret := if slot < 0 then -1 else slot,
    buf := { buf with abc :=
      if store then { abc2 with crc32_le := android_boot_control_compute_crc crc32 abc2 }
      else abc2 },
    stored := store }

/-- The default state in the words of the specification, built from the three
array sizes alone: current magic and version, `nb_slot` the capacity, every
slot {15, 7, 0, 0, 0}, suffix `a`, reserved bytes zero, checksum recomputed. -/
def default_image (cfg : ab_config) (crc32 : Nat → List Nat → Nat)
    (capacity n0 n1 : Nat) : android_bootloader_control :=
  let abc : android_bootloader_control :=
    { magic := cfg.ANDROID_BOOT_CTRL_MAGIC,
      version := cfg.ANDROID_BOOT_CTRL_VERSION,
      nb_slot := capacity,
      slot_info := List.replicate capacity
        { priority := 15, tries_remaining := 7, successful_boot := 0, verity_corrupted := 0,
          reserved := 0 },
      reserved0 := List.replicate n0 0,
      slot_suffix := [97, 0, 0, 0],
      reserved1 := List.replicate n1 0,
      crc32_le := 0 }
  { abc with crc32_le := crc32 0 (bytes_before_crc abc) }

/-! ## A concrete device and checksum for the examples -/

/-- A device holding one control-block region: every read returns it in full,
every write replaces it in full, allocation succeeds. -/
def region_ops : blk_ops abc_data_block where
  blk_dread := fun dev _ blkcnt => (blkcnt, dev)
  blk_dwrite := fun _ _ blkcnt buf => (blkcnt, buf)
  malloc := fun _ => true

/-- A 32-bit additive checksum, standing for `crc32` in the examples. -/
def sum32 (seed : Nat) (bytes : List Nat) : Nat := (seed + bytes.sum) % 4294967296

/-- Constants for the examples: the control block sits at byte 2048 of the
partition and takes 48 bytes (two slots, four bytes of `reserved0`, eight of
`reserved1`). -/
def cfg0 : ab_config :=
  { ANDROID_BOOT_CTRL_MAGIC := 0x42414342, ANDROID_BOOT_CTRL_VERSION := 1,
    abc_offset_bytes := 2048, abc_sizeof := 48 }

/-- A partition of sixty-four 64-byte blocks. -/
def part0 : disk_partition_t := { start := 0, size := 64, blksz := 64 }

/-- A slot record with the four policy fields given and `reserved` zero. -/
def mk_slot (priority tries_remaining successful_boot verity_corrupted : Nat) :
    android_slot_metadata :=
  { priority := priority, tries_remaining := tries_remaining,
    successful_boot := successful_boot, verity_corrupted := verity_corrupted,
    reserved := 0 }

/-- A control block for `cfg0` with the given `nb_slot`, slots and suffix, the
checksum `sum32` gives, and sixteen bytes after the structure. -/
def mk_block (nb_slot : Nat) (slots : List android_slot_metadata) (suffix : List Nat) :
    abc_data_block :=
  let abc : android_bootloader_control :=
    { magic := cfg0.ANDROID_BOOT_CTRL_MAGIC, version := cfg0.ANDROID_BOOT_CTRL_VERSION,
      nb_slot := nb_slot, slot_info := slots, reserved0 := [0, 0, 0, 0],
      slot_suffix := suffix, reserved1 := [0, 0, 0, 0, 0, 0, 0, 0], crc32_le := 0 }
  { abc := { abc with crc32_le := android_boot_control_compute_crc sum32 abc },
    tail := [1, 2, 3, 4, 5, 6, 7, 8, 9, 10, 11, 12, 13, 14, 15, 16] }

/-- Example: A = {priority 10, tries 3}, B = {priority 10, tries 5}, neither
successful nor corrupted, suffix "a". -/
def block_ab : abc_data_block := mk_block 2 [mk_slot 10 3 0 0, mk_slot 10 5 0 0] [97, 0, 0, 0]

/-- Example: two slots equal in the three ranking fields, and a third of lower
priority. -/
def block_tie : abc_data_block :=
  mk_block 3 [mk_slot 7 2 0 0, mk_slot 9 4 1 0, mk_slot 9 4 1 0] [98, 0, 0, 0]

/-- Example: the slot of highest priority is marked corrupted. -/
def block_corrupt : abc_data_block :=
  mk_block 2 [mk_slot 15 7 0 1, mk_slot 3 2 1 0] [98, 0, 0, 0]

/-- Example: one slot in use, {priority 5, successful, no tries left}. -/
def block_exhausted : abc_data_block :=
  mk_block 1 [mk_slot 5 0 1 0, mk_slot 0 0 0 0] [97, 0, 0, 0]

/-- Example: `nb_slot` above the array size and no slot bootable. -/
def block_none : abc_data_block :=
  mk_block 5 [mk_slot 15 0 0 0, mk_slot 15 7 0 1] [97, 0, 0, 0]

/-- Example: a block whose stored checksum is off by one; slot 0 is marked
corrupted and slot 1 has no tries left. -/
def block_badcrc : abc_data_block :=
  let b := mk_block 2 [mk_slot 15 7 0 1, mk_slot 3 0 1 0] [98, 0, 0, 0]
  { b with abc := { b.abc with crc32_le := b.abc.crc32_le + 1 } }

/-- Example: a block with a foreign magic, a later version and `nb_slot` above
the array size, whose checksum is right. -/
def block_foreign : abc_data_block :=
  let abc : android_bootloader_control :=
    { block_ab.abc with magic := 0x4F424144, version := 9, nb_slot := 7 }
  { abc := { abc with crc32_le := android_boot_control_compute_crc sum32 abc },
    tail := block_ab.tail }

/-- Example: a block of a later version than `cfg0` knows, with the current
magic, `nb_slot` above the array size and a right checksum. -/
def block_newer : abc_data_block :=
  let abc : android_bootloader_control := { block_ab.abc with version := 9, nb_slot := 7 }
  { abc := { abc with crc32_le := android_boot_control_compute_crc sum32 abc },
    tail := block_ab.tail }

/-- Example: slot 0 wins, is marked successful, and the suffix is already
"a". -/
def block_settled : abc_data_block :=
  mk_block 2 [mk_slot 15 3 1 0, mk_slot 10 5 0 0] [97, 0, 0, 0]

/-- Lines 169-176 on their own: the block after the checksum test, which is
the default when the test fails and the block loaded otherwise. -/
def checked (cfg : ab_config) (crc32 : Nat → List Nat → Nat)
    (abc : android_bootloader_control) : android_bootloader_control :=
  if abc.crc32_le ≠ android_boot_control_compute_crc crc32 abc then
    android_boot_control_default cfg crc32 abc
  else abc

/-- A partition whose block size, 48, does not divide the offset 2048 of
`cfg0`. -/
def part_unaligned : disk_partition_t := { start := 0, size := 64, blksz := 48 }

/-- Example: `nb_slot` far above the two slots of the array. -/
def block_far : abc_data_block :=
  mk_block 4000000000 [mk_slot 10 3 0 0, mk_slot 10 5 0 0] [97, 0, 0, 0]

/-- The device after `n` consecutive calls of `android_ab_select`, nothing
else writing it in between. -/
def select_iter {Dev : Type} (cfg : ab_config) (crc32 : Nat → List Nat → Nat)
    (ops : blk_ops Dev) (part : disk_partition_t) : Nat → Dev → Dev
  | 0, dev => dev
  | n + 1, dev => (android_ab_select cfg crc32 ops (select_iter cfg crc32 ops part n dev) part).2

/-- Every store on the device succeeds, and a load after it returns the block
stored. -/
def store_then_load {Dev : Type} (cfg : ab_config) (ops : blk_ops Dev)
    (part : disk_partition_t) : Prop :=
  ∀ (dev : Dev) (b : abc_data_block),
    (android_boot_control_store cfg ops b dev part).1 = 0 ∧
    android_boot_control_create_from_disk cfg ops
      (android_boot_control_store cfg ops b dev part).2 part = some b

/-- Slot `w` of block `b` is bootable with `t` tries left, is not marked
successful, and has a higher priority than every other bootable slot; the
block passes the three checks. -/
def counting (cfg : ab_config) (crc32 : Nat → List Nat → Nat) (w t : Nat)
    (b : abc_data_block) : Prop :=
  valid_block cfg crc32 b.abc ∧ w < b.abc.nb_slot ∧ w < b.abc.slot_info.length ∧
  (slot_at b.abc w).successful_boot = 0 ∧ (slot_at b.abc w).verity_corrupted = 0 ∧
  (slot_at b.abc w).tries_remaining = t ∧
  ∀ j, bootable b.abc j → j ≠ w → (slot_at b.abc j).priority < (slot_at b.abc w).priority

/-- Example: two slots in the default state, with a right checksum. -/
def block_rr : abc_data_block := mk_block 2 [mk_slot 15 7 0 0, mk_slot 15 7 0 0] [97, 0, 0, 0]

/-- Example: slot 0 has seven tries and the higher priority. -/
def block_count : abc_data_block := mk_block 2 [mk_slot 15 7 0 0, mk_slot 14 7 0 0] [97, 0, 0, 0]

/-- A partition of thirty-two 64-byte blocks: 2048 bytes, which end where the
control block of `cfg0` starts. -/
def part_small : disk_partition_t := { start := 0, size := 32, blksz := 64 }

/-- Example: slot 0 has the higher priority, is marked successful, is not
corrupted and has no tries left; slot 1 has tries left. -/
def block_spent : abc_data_block :=
  mk_block 2 [mk_slot 15 0 1 0, mk_slot 3 2 0 0] [97, 0, 0, 0]

/-- Example: the only bootable slot has priority 0. -/
def block_prio0 : abc_data_block :=
  mk_block 2 [mk_slot 15 0 0 0, mk_slot 0 3 0 0] [97, 0, 0, 0]

/-- Round-robin state of a block with `C` slots: it passes the three checks,
`nb_slot` and the array size are `C`, and every slot is the default record
with `7 - q` tries, one less for the slots below `m`. -/
def rr_state (cfg : ab_config) (crc32 : Nat → List Nat → Nat) (C q m : Nat)
    (b : abc_data_block) : Prop :=
  valid_block cfg crc32 b.abc ∧ b.abc.nb_slot = C ∧ b.abc.slot_info.length = C ∧
  ∀ i, i < C → slot_at b.abc i =
    { priority := 15, tries_remaining := 7 - q - (if i < m then 1 else 0),
      successful_boot := 0, verity_corrupted := 0, reserved := 0 }

/-- A block with a valid checksum in which no slot has a try left. -/
def all_spent (crc32 : Nat → List Nat → Nat) (b : abc_data_block) : Prop :=
  crc_valid crc32 b.abc ∧ ∀ i, (slot_at b.abc i).tries_remaining = 0

/-- Example: the default control block for `cfg0`, two slots. -/
def block_default : abc_data_block :=
  { abc := android_boot_control_default cfg0 sum32 block_ab.abc, tail := block_ab.tail }

/-! ## The comparison -/

theorem compare_neg_iff (a b : android_slot_metadata) :
    android_ab_compare_slots a b < 0 ↔ ranks_higher a b := by
  unfold android_ab_compare_slots ranks_higher
  split_ifs <;> omega

theorem ranks_higher_irrefl (a : android_slot_metadata) : ¬ ranks_higher a a := by
  unfold ranks_higher; omega

theorem ranks_higher_of_not_left {a b c : android_slot_metadata}
    (hab : ¬ ranks_higher a b) (hcb : ranks_higher c b) : ranks_higher c a := by
  unfold ranks_higher at *; omega

theorem not_ranks_higher_trans {a b c : android_slot_metadata}
    (hab : ¬ ranks_higher a b) (hbc : ¬ ranks_higher b c) : ¬ ranks_higher a c := by
  unfold ranks_higher at *; omega

/-! ## The selection loop -/

theorem loop_upto_succ (abc : android_bootloader_control) (n : Nat) :
    loop_upto abc (n + 1) = select_step abc (loop_upto abc n) n := by
  simp [loop_upto, List.range_succ, List.foldl_append]

theorem select_loop_eq (abc : android_bootloader_control) :
    select_loop abc = loop_upto abc abc.nb_slot := rfl

theorem select_step_skip {abc : android_bootloader_control} {i : Nat}
    (h : ¬ eligible abc i) (slot : Int) : select_step abc slot i = slot := by
  unfold select_step
  have : (slot_at abc i).verity_corrupted ≠ 0 ∨ (slot_at abc i).tries_remaining = 0 := by
    unfold eligible at h; omega
  simp [this]

theorem select_step_first {abc : android_bootloader_control} {i : Nat}
    (h : eligible abc i) : select_step abc (-1) i = (i : Int) := by
  unfold select_step
  have : ¬ ((slot_at abc i).verity_corrupted ≠ 0 ∨ (slot_at abc i).tries_remaining = 0) := by
    unfold eligible at h; omega
  simp [this]

theorem select_step_next {abc : android_bootloader_control} {i : Nat}
    (h : eligible abc i) (k : Nat) :
    select_step abc (k : Int) i =
      if ranks_higher (slot_at abc i) (slot_at abc k) then (i : Int) else (k : Int) := by
  unfold select_step
  have h1 : ¬ ((slot_at abc i).verity_corrupted ≠ 0 ∨ (slot_at abc i).tries_remaining = 0) := by
    unfold eligible at h; omega
  have h2 : ¬ ((k : Int) < 0) := by omega
  simp only [h1, h2, if_false, Int.toNat_ofNat, compare_neg_iff]

theorem loop_inv_upto (abc : android_bootloader_control) (n : Nat) :
    loop_inv abc n (loop_upto abc n) := by
  induction n with
  | zero => left; exact ⟨rfl, fun j hj => absurd hj (Nat.not_lt_zero j)⟩
  | succ n ih =>
    rw [loop_upto_succ]
    by_cases hn : eligible abc n
    · rcases ih with ⟨hr, hnone⟩ | ⟨k, hr, hk, hek, hbest, hleast⟩
      · right
        refine ⟨n, ?_, Nat.lt_succ_self n, hn, ?_, ?_⟩
        · rw [hr, select_step_first hn]
        · intro j hj hej
          rcases Nat.lt_succ_iff_lt_or_eq.mp hj with hlt | heq
          · exact absurd hej (hnone j hlt)
          · rw [heq]; exact ranks_higher_irrefl _
        · intro j hj hej
          exact absurd hej (hnone j hj)
      · right
        rw [hr, select_step_next hn k]
        by_cases hbetter : ranks_higher (slot_at abc n) (slot_at abc k)
        · rw [if_pos hbetter]
          refine ⟨n, rfl, Nat.lt_succ_self n, hn, ?_, ?_⟩
          · intro j hj hej
            rcases Nat.lt_succ_iff_lt_or_eq.mp hj with hlt | heq
            · have h1 := hbest j hlt hej
              have h2 := ranks_higher_of_not_left h1 hbetter
              intro h3
              unfold ranks_higher at h2 h3; omega
            · rw [heq]; exact ranks_higher_irrefl _
          · intro j hj hej
            exact ranks_higher_of_not_left (hbest j hj hej) hbetter
        · rw [if_neg hbetter]
          refine ⟨k, rfl, Nat.lt_succ_of_lt hk, hek, ?_, hleast⟩
          intro j hj hej
          rcases Nat.lt_succ_iff_lt_or_eq.mp hj with hlt | heq
          · exact hbest j hlt hej
          · rw [heq]; exact hbetter
    · rw [select_step_skip hn]
      rcases ih with ⟨hr, hnone⟩ | ⟨k, hr, hk, hek, hbest, hleast⟩
      · left
        refine ⟨hr, ?_⟩
        intro j hj
        rcases Nat.lt_succ_iff_lt_or_eq.mp hj with hlt | heq
        · exact hnone j hlt
        · rw [heq]; exact hn
      · right
        refine ⟨k, hr, Nat.lt_succ_of_lt hk, hek, ?_, hleast⟩
        intro j hj hej
        rcases Nat.lt_succ_iff_lt_or_eq.mp hj with hlt | heq
        · exact hbest j hlt hej
        · rw [heq] at hej; exact absurd hej hn

/-! ## Normal forms of `android_ab_select` -/

theorem loop_upto_congr {abc abc' : android_bootloader_control}
    (h : abc'.slot_info = abc.slot_info) (n : Nat) : loop_upto abc' n = loop_upto abc n := by
  have hs : select_step abc' = select_step abc := by
    funext slot i
    simp only [select_step, slot_at, h]
  simp only [loop_upto, hs]

theorem clamped_slot_info (abc : android_bootloader_control) :
    (clamped abc).slot_info = abc.slot_info := by
  unfold clamped; split_ifs <;> rfl

theorem clamped_nb_slot (abc : android_bootloader_control) :
    (clamped abc).nb_slot = min abc.nb_slot abc.slot_info.length := by
  unfold clamped; split_ifs with h
  · simp only []; omega
  · omega

theorem select_loop_clamped (abc : android_bootloader_control) :
    select_loop (clamped abc) = loop_upto abc (min abc.nb_slot abc.slot_info.length) := by
  rw [select_loop_eq, clamped_nb_slot, loop_upto_congr (clamped_slot_info abc)]

theorem tail_eq_select_from (crc32 : Nat → List Nat → Nat) (buf : abc_data_block)
    (abc : android_bootloader_control) (store_needed : Bool) :
    android_ab_select_tail crc32 buf abc store_needed = select_from crc32 buf abc store_needed := by
  unfold android_ab_select_tail select_from decremented suffixed suffix_of
  generalize select_loop abc = slot
  by_cases hd : slot ≥ 0 ∧ (slot_at abc slot.toNat).successful_boot = 0
  · simp only [hd, decide_True, if_true, and_self, Bool.or_true, Bool.true_or, true_and]
    by_cases hs : abc.slot_suffix = [(ANDROID_BOOT_SLOT_NAME slot % 256).toNat, 0, 0, 0]
    · simp [hs]
    · simp [hs]
  · simp only [hd, decide_False, Bool.false_eq_true, if_false, Bool.or_false]
    by_cases hs : slot ≥ 0 ∧ abc.slot_suffix ≠ [(ANDROID_BOOT_SLOT_NAME slot % 256).toNat, 0, 0, 0]
    · simp [hs]
    · cases store_needed <;> simp [hs]

theorem loaded_of_valid (cfg : ab_config) (crc32 : Nat → List Nat → Nat)
    (buf : abc_data_block) (hv : valid_block cfg crc32 buf.abc) :
    android_ab_select_loaded cfg crc32 buf =
      select_from crc32 buf (clamped buf.abc) (decide (buf.abc.nb_slot > buf.abc.slot_info.length)) := by
  obtain ⟨hcrc, hmagic, hver⟩ := hv
  unfold crc_valid at hcrc
  have hver' : ¬ (buf.abc.version > cfg.ANDROID_BOOT_CTRL_VERSION) := by omega
  have hm : decide (buf.abc.crc32_le ≠ android_boot_control_compute_crc crc32 buf.abc) = false := by
    simp [← hcrc]
  have hmagic' : ¬ (buf.abc.magic ≠ cfg.ANDROID_BOOT_CTRL_MAGIC) := by simp [hmagic]
  unfold android_ab_select_loaded
  simp only [hm, Bool.false_eq_true, if_false]
  rw [if_neg hmagic', if_neg hver', tail_eq_select_from]
  by_cases hc : buf.abc.nb_slot > buf.abc.slot_info.length <;> simp [clamped, hc]

theorem select_of_load {Dev : Type} (cfg : ab_config) (crc32 : Nat → List Nat → Nat)
    (ops : blk_ops Dev) (dev : Dev) (part : disk_partition_t) (buf : abc_data_block)
    (hload : android_boot_control_create_from_disk cfg ops dev part = some buf) :
    android_ab_select cfg crc32 ops dev part =
      if (android_ab_select_loaded cfg crc32 buf).stored then
        ((android_ab_select_loaded cfg crc32 buf).ret,
          (android_boot_control_store cfg ops (android_ab_select_loaded cfg crc32 buf).buf
            dev part).2)
      else ((android_ab_select_loaded cfg crc32 buf).ret, dev) := by
  unfold android_ab_select
  rw [hload]

theorem select_ret_of_load {Dev : Type} (cfg : ab_config) (crc32 : Nat → List Nat → Nat)
    (ops : blk_ops Dev) (dev : Dev) (part : disk_partition_t) (buf : abc_data_block)
    (hload : android_boot_control_create_from_disk cfg ops dev part = some buf) :
    (android_ab_select cfg crc32 ops dev part).1 = (android_ab_select_loaded cfg crc32 buf).ret := by
  rw [select_of_load cfg crc32 ops dev part buf hload]
  split_ifs <;> rfl

theorem loaded_of_bad_magic (cfg : ab_config) (crc32 : Nat → List Nat → Nat)
    (buf : abc_data_block) (hcrc : crc_valid crc32 buf.abc)
    (hmagic : buf.abc.magic ≠ cfg.ANDROID_BOOT_CTRL_MAGIC) :
    android_ab_select_loaded cfg crc32 buf = { ret := -1, buf := buf, stored := false } := by
  unfold crc_valid at hcrc
  have hm : decide (buf.abc.crc32_le ≠ android_boot_control_compute_crc crc32 buf.abc) = false := by
    simp [← hcrc]
  unfold android_ab_select_loaded
  simp only [hm, Bool.false_eq_true, if_false]
  rw [if_pos hmagic]

theorem loaded_of_bad_version (cfg : ab_config) (crc32 : Nat → List Nat → Nat)
    (buf : abc_data_block) (hcrc : crc_valid crc32 buf.abc)
    (hmagic : buf.abc.magic = cfg.ANDROID_BOOT_CTRL_MAGIC)
    (hver : buf.abc.version > cfg.ANDROID_BOOT_CTRL_VERSION) :
    android_ab_select_loaded cfg crc32 buf = { ret := -1, buf := buf, stored := false } := by
  unfold crc_valid at hcrc
  have hm : decide (buf.abc.crc32_le ≠ android_boot_control_compute_crc crc32 buf.abc) = false := by
    simp [← hcrc]
  have hmagic' : ¬ (buf.abc.magic ≠ cfg.ANDROID_BOOT_CTRL_MAGIC) := by simp [hmagic]
  unfold android_ab_select_loaded
  simp only [hm, Bool.false_eq_true, if_false]
  rw [if_neg hmagic', if_pos hver]

theorem select_from_ret (crc32 : Nat → List Nat → Nat) (buf : abc_data_block)
    (abc : android_bootloader_control) (store_needed : Bool) :
    (select_from crc32 buf abc store_needed).ret =
      if select_loop abc < 0 then -1 else select_loop abc := rfl

/-- The value returned for a block that passes the three checks, in terms of
the loop over the loaded slots. -/
theorem loaded_ret_of_valid (cfg : ab_config) (crc32 : Nat → List Nat → Nat)
    (buf : abc_data_block) (hv : valid_block cfg crc32 buf.abc) :
    (android_ab_select_loaded cfg crc32 buf).ret =
      if loop_upto buf.abc (min buf.abc.nb_slot buf.abc.slot_info.length) < 0 then -1
      else loop_upto buf.abc (min buf.abc.nb_slot buf.abc.slot_info.length) := by
  rw [loaded_of_valid cfg crc32 buf hv, select_from_ret, select_loop_clamped]

/-- A block with a good checksum that fails the magic or the version test
yields -1. -/
theorem loaded_ret_of_crc_valid_not_valid (cfg : ab_config) (crc32 : Nat → List Nat → Nat)
    (buf : abc_data_block) (hcrc : crc_valid crc32 buf.abc)
    (hnv : ¬ valid_block cfg crc32 buf.abc) :
    (android_ab_select_loaded cfg crc32 buf).ret = -1 := by
  by_cases hmagic : buf.abc.magic = cfg.ANDROID_BOOT_CTRL_MAGIC
  · have hver : buf.abc.version > cfg.ANDROID_BOOT_CTRL_VERSION := by
      by_contra h
      exact hnv ⟨hcrc, hmagic, by omega⟩
    rw [loaded_of_bad_version cfg crc32 buf hcrc hmagic hver]
  · rw [loaded_of_bad_magic cfg crc32 buf hcrc hmagic]

theorem bootable_iff (abc : android_bootloader_control) (j : Nat) :
    bootable abc j ↔ j < min abc.nb_slot abc.slot_info.length ∧ eligible abc j := by
  unfold bootable
  constructor
  · rintro ⟨h1, h2, h3⟩; exact ⟨by omega, h3⟩
  · rintro ⟨h1, h3⟩; exact ⟨by omega, by omega, h3⟩

/-- The outcome for a valid block read off the loop invariant: -1 with no
bootable slot, or the least maximal bootable slot. -/
theorem loaded_ret_cases (cfg : ab_config) (crc32 : Nat → List Nat → Nat)
    (buf : abc_data_block) (hv : valid_block cfg crc32 buf.abc) :
    ((android_ab_select_loaded cfg crc32 buf).ret = -1 ∧ ∀ j, ¬ bootable buf.abc j) ∨
    (∃ k : Nat, (android_ab_select_loaded cfg crc32 buf).ret = (k : Int) ∧ bootable buf.abc k ∧
      (∀ j, bootable buf.abc j → ¬ ranks_higher (slot_at buf.abc j) (slot_at buf.abc k)) ∧
      (∀ j, j < k → bootable buf.abc j → ranks_higher (slot_at buf.abc k) (slot_at buf.abc j))) := by
  rw [loaded_ret_of_valid cfg crc32 buf hv]
  rcases loop_inv_upto buf.abc (min buf.abc.nb_slot buf.abc.slot_info.length) with
    ⟨hr, hnone⟩ | ⟨k, hr, hk, hek, hbest, hleast⟩
  · left
    rw [hr]
    refine ⟨by simp, ?_⟩
    intro j hj
    rw [bootable_iff] at hj
    exact hnone j hj.1 hj.2
  · right
    rw [hr]
    have hk0 : ¬ ((k : Int) < 0) := by omega
    refine ⟨k, by rw [if_neg hk0], (bootable_iff _ _).mpr ⟨hk, hek⟩, ?_, ?_⟩
    · intro j hj
      rw [bootable_iff] at hj
      exact hbest j hj.1 hj.2
    · intro j hjk hj
      rw [bootable_iff] at hj
      exact hleast j hjk hj.2

/-! ## Claims about the slot returned -/

/-- C1. A block that loads, has a valid checksum, the correct magic, a
supported version and at least one bootable slot makes `android_ab_select`
return the index of a bootable slot that no bootable slot outranks in the
order priority, then `successful_boot`, then `tries_remaining`; the ranking is
read on the loaded block, before any decrement. -/
theorem select_returns_unbeaten_bootable {Dev : Type} (cfg : ab_config)
    (crc32 : Nat → List Nat → Nat) (ops : blk_ops Dev) (dev : Dev) (part : disk_partition_t)
    (buf : abc_data_block)
    (hload : android_boot_control_create_from_disk cfg ops dev part = some buf)
    (hv : valid_block cfg crc32 buf.abc) (hboot : ∃ j, bootable buf.abc j) :
    ∃ i : Nat, (android_ab_select cfg crc32 ops dev part).1 = (i : Int) ∧ bootable buf.abc i ∧
      ∀ j, bootable buf.abc j → ¬ ranks_higher (slot_at buf.abc j) (slot_at buf.abc i) := by
  rw [select_ret_of_load cfg crc32 ops dev part buf hload]
  rcases loaded_ret_cases cfg crc32 buf hv with ⟨_, hnone⟩ | ⟨k, hr, hk, hbest, _⟩
  · obtain ⟨j, hj⟩ := hboot
    exact absurd hj (hnone j)
  · exact ⟨k, hr, hk, hbest⟩

/-- C2. For a valid block with a bootable slot the index returned is the
smallest among the bootable slots that no bootable slot outranks; a bootable
slot equal to the winner in the three fields has an index at least the
winner's. -/
theorem select_returns_least_maximal {Dev : Type} (cfg : ab_config)
    (crc32 : Nat → List Nat → Nat) (ops : blk_ops Dev) (dev : Dev) (part : disk_partition_t)
    (buf : abc_data_block)
    (hload : android_boot_control_create_from_disk cfg ops dev part = some buf)
    (hv : valid_block cfg crc32 buf.abc) (hboot : ∃ j, bootable buf.abc j) :
    ∃ i : Nat, (android_ab_select cfg crc32 ops dev part).1 = (i : Int) ∧ bootable buf.abc i ∧
      (∀ j, bootable buf.abc j → ¬ ranks_higher (slot_at buf.abc j) (slot_at buf.abc i)) ∧
      (∀ j, bootable buf.abc j →
        (∀ k, bootable buf.abc k → ¬ ranks_higher (slot_at buf.abc k) (slot_at buf.abc j)) →
        i ≤ j) ∧
      (∀ j, bootable buf.abc j →
        (slot_at buf.abc j).priority = (slot_at buf.abc i).priority →
        (slot_at buf.abc j).successful_boot = (slot_at buf.abc i).successful_boot →
        (slot_at buf.abc j).tries_remaining = (slot_at buf.abc i).tries_remaining →
        i ≤ j) := by
  rw [select_ret_of_load cfg crc32 ops dev part buf hload]
  rcases loaded_ret_cases cfg crc32 buf hv with ⟨_, hnone⟩ | ⟨k, hr, hk, hbest, hleast⟩
  · obtain ⟨j, hj⟩ := hboot
    exact absurd hj (hnone j)
  · refine ⟨k, hr, hk, hbest, ?_, ?_⟩
    · intro j hj hmax
      by_contra hlt
      exact hmax k hk (hleast j (by omega) hj)
    · intro j hj hp hs ht
      by_contra hlt
      have := hleast j (by omega) hj
      unfold ranks_higher at this
      omega

/-- C3. For a block with a valid checksum `android_ab_select` never returns the
index of a slot marked `verity_corrupted`; when every slot in range that has
tries left is marked corrupted it returns -1. -/
theorem select_never_returns_corrupted {Dev : Type} (cfg : ab_config)
    (crc32 : Nat → List Nat → Nat) (ops : blk_ops Dev) (dev : Dev) (part : disk_partition_t)
    (buf : abc_data_block)
    (hload : android_boot_control_create_from_disk cfg ops dev part = some buf)
    (hcrc : crc_valid crc32 buf.abc) :
    (∀ i : Nat, (android_ab_select cfg crc32 ops dev part).1 = (i : Int) →
      (slot_at buf.abc i).verity_corrupted = 0) ∧
    ((∀ j, j < buf.abc.nb_slot → j < buf.abc.slot_info.length →
        0 < (slot_at buf.abc j).tries_remaining → (slot_at buf.abc j).verity_corrupted ≠ 0) →
      (android_ab_select cfg crc32 ops dev part).1 = -1) := by
  rw [select_ret_of_load cfg crc32 ops dev part buf hload]
  by_cases hv : valid_block cfg crc32 buf.abc
  · rcases loaded_ret_cases cfg crc32 buf hv with ⟨hr, _⟩ | ⟨k, hr, hk, _, _⟩
    · rw [hr]
      exact ⟨fun i hi => by omega, fun _ => rfl⟩
    · rw [hr]
      refine ⟨fun i hi => ?_, fun hall => ?_⟩
      · have : k = i := by omega
        rw [← this]
        exact hk.2.2.1
      · exact absurd hk.2.2.1 (hall k hk.1 hk.2.1 hk.2.2.2)
  · rw [loaded_ret_of_crc_valid_not_valid cfg crc32 buf hcrc hv]
    exact ⟨fun i hi => by omega, fun _ => rfl⟩

/-- C4. For a block with a valid checksum `android_ab_select` never returns the
index of a slot whose `tries_remaining` is 0, whatever its `successful_boot`;
with one slot in use, of priority 5, `successful_boot` set and no tries left,
it returns -1. -/
theorem select_never_returns_exhausted {Dev : Type} (cfg : ab_config)
    (crc32 : Nat → List Nat → Nat) (ops : blk_ops Dev) (dev : Dev) (part : disk_partition_t)
    (buf : abc_data_block)
    (hload : android_boot_control_create_from_disk cfg ops dev part = some buf)
    (hcrc : crc_valid crc32 buf.abc) :
    (∀ i : Nat, (android_ab_select cfg crc32 ops dev part).1 = (i : Int) →
      (slot_at buf.abc i).tries_remaining ≠ 0) ∧
    (buf.abc.nb_slot = 1 → (slot_at buf.abc 0).priority = 5 →
      (slot_at buf.abc 0).successful_boot = 1 → (slot_at buf.abc 0).tries_remaining = 0 →
      (android_ab_select cfg crc32 ops dev part).1 = -1) := by
  rw [select_ret_of_load cfg crc32 ops dev part buf hload]
  by_cases hv : valid_block cfg crc32 buf.abc
  · rcases loaded_ret_cases cfg crc32 buf hv with ⟨hr, _⟩ | ⟨k, hr, hk, _, _⟩
    · rw [hr]
      exact ⟨fun i hi => by omega, fun _ _ _ _ => rfl⟩
    · rw [hr]
      refine ⟨fun i hi => ?_, fun hnb _ _ ht => ?_⟩
      · have : k = i := by omega
        rw [← this]
        exact Nat.pos_iff_ne_zero.mp hk.2.2.2
      · have hk0 : k = 0 := by have := hk.1; omega
        rw [hk0] at hk
        have := hk.2.2.2
        omega
  · rw [loaded_ret_of_crc_valid_not_valid cfg crc32 buf hcrc hv]
    exact ⟨fun i hi => by omega, fun _ _ _ _ => rfl⟩

/-- C5. For a block that loads and passes the checksum, magic and version
tests, `android_ab_select` returns -1 exactly when every slot below
`min nb_slot capacity` is marked corrupted or has no tries left; otherwise it
returns a slot index, which is not negative and below that bound. -/
theorem select_fails_iff_no_bootable {Dev : Type} (cfg : ab_config)
    (crc32 : Nat → List Nat → Nat) (ops : blk_ops Dev) (dev : Dev) (part : disk_partition_t)
    (buf : abc_data_block)
    (hload : android_boot_control_create_from_disk cfg ops dev part = some buf)
    (hv : valid_block cfg crc32 buf.abc) :
    ((android_ab_select cfg crc32 ops dev part).1 = -1 ↔
      ∀ j, j < min buf.abc.nb_slot buf.abc.slot_info.length →
        (slot_at buf.abc j).verity_corrupted ≠ 0 ∨ (slot_at buf.abc j).tries_remaining = 0) ∧
    ((android_ab_select cfg crc32 ops dev part).1 ≠ -1 →
      0 ≤ (android_ab_select cfg crc32 ops dev part).1 ∧
      (android_ab_select cfg crc32 ops dev part).1 <
        ((min buf.abc.nb_slot buf.abc.slot_info.length : Nat) : Int)) := by
  rw [select_ret_of_load cfg crc32 ops dev part buf hload]
  rcases loaded_ret_cases cfg crc32 buf hv with ⟨hr, hnone⟩ | ⟨k, hr, hk, _, _⟩
  · rw [hr]
    refine ⟨⟨fun _ j hj => ?_, fun _ => rfl⟩, fun h => absurd rfl h⟩
    have := hnone j
    rw [bootable_iff] at this
    unfold eligible at this
    by_contra hcon
    exact this ⟨hj, by omega⟩
  · rw [hr]
    rw [bootable_iff] at hk
    refine ⟨⟨fun h => by omega, fun hall => ?_⟩, fun _ => ⟨by omega, by omega⟩⟩
    have h1 := hall k hk.1
    have h2 := hk.2
    unfold eligible at h2
    omega

/-- C1 at `block_ab`: the hypotheses hold and slot B is returned. -/
theorem select_returns_unbeaten_bootable_witness :
    android_boot_control_create_from_disk cfg0 region_ops block_ab part0 = some block_ab ∧
    valid_block cfg0 sum32 block_ab.abc ∧ bootable block_ab.abc 0 ∧
    ∃ i : Nat, (android_ab_select cfg0 sum32 region_ops block_ab part0).1 = (i : Int) ∧
      bootable block_ab.abc i ∧
      ∀ j, bootable block_ab.abc j →
        ¬ ranks_higher (slot_at block_ab.abc j) (slot_at block_ab.abc i) :=
  ⟨by decide, by decide, by decide,
    select_returns_unbeaten_bootable cfg0 sum32 region_ops block_ab part0 block_ab
      (by decide) (by decide) ⟨0, by decide⟩⟩

/-- C2 at `block_tie`: slots 1 and 2 tie at the top. -/
theorem select_returns_least_maximal_witness :
    android_boot_control_create_from_disk cfg0 region_ops block_tie part0 = some block_tie ∧
    valid_block cfg0 sum32 block_tie.abc ∧ bootable block_tie.abc 2 ∧
    (android_ab_select cfg0 sum32 region_ops block_tie part0).1 = 1 ∧
    ∃ i : Nat, (android_ab_select cfg0 sum32 region_ops block_tie part0).1 = (i : Int) ∧
      bootable block_tie.abc i ∧
      (∀ j, bootable block_tie.abc j →
        ¬ ranks_higher (slot_at block_tie.abc j) (slot_at block_tie.abc i)) ∧
      (∀ j, bootable block_tie.abc j →
        (∀ k, bootable block_tie.abc k →
          ¬ ranks_higher (slot_at block_tie.abc k) (slot_at block_tie.abc j)) →
        i ≤ j) ∧
      (∀ j, bootable block_tie.abc j →
        (slot_at block_tie.abc j).priority = (slot_at block_tie.abc i).priority →
        (slot_at block_tie.abc j).successful_boot = (slot_at block_tie.abc i).successful_boot →
        (slot_at block_tie.abc j).tries_remaining = (slot_at block_tie.abc i).tries_remaining →
        i ≤ j) :=
  ⟨by decide, by decide, by decide, by decide,
    select_returns_least_maximal cfg0 sum32 region_ops block_tie part0 block_tie
      (by decide) (by decide) ⟨2, by decide⟩⟩

/-- C3 at `block_corrupt`: slot 0 has the highest priority and is corrupted;
slot 1 is returned. -/
theorem select_never_returns_corrupted_witness :
    android_boot_control_create_from_disk cfg0 region_ops block_corrupt part0 =
      some block_corrupt ∧
    crc_valid sum32 block_corrupt.abc ∧
    (android_ab_select cfg0 sum32 region_ops block_corrupt part0).1 = 1 ∧
    (slot_at block_corrupt.abc 1).verity_corrupted = 0 :=
  ⟨by decide, by decide, by decide,
    (select_never_returns_corrupted cfg0 sum32 region_ops block_corrupt part0 block_corrupt
      (by decide) (by decide)).1 1 (by decide)⟩

/-- C4 at `block_exhausted`: the only slot in use is successful with no tries
left, and -1 is returned. -/
theorem select_never_returns_exhausted_witness :
    android_boot_control_create_from_disk cfg0 region_ops block_exhausted part0 =
      some block_exhausted ∧
    crc_valid sum32 block_exhausted.abc ∧
    (android_ab_select cfg0 sum32 region_ops block_exhausted part0).1 = -1 :=
  ⟨by decide, by decide,
    (select_never_returns_exhausted cfg0 sum32 region_ops block_exhausted part0 block_exhausted
      (by decide) (by decide)).2 (by decide) (by decide) (by decide) (by decide)⟩

/-- C5 at `block_none`: no slot is bootable and -1 is returned. -/
theorem select_fails_iff_no_bootable_witness :
    android_boot_control_create_from_disk cfg0 region_ops block_none part0 = some block_none ∧
    valid_block cfg0 sum32 block_none.abc ∧
    (android_ab_select cfg0 sum32 region_ops block_none part0).1 = -1 :=
  ⟨by decide, by decide,
    (select_fails_iff_no_bootable cfg0 sum32 region_ops block_none part0 block_none
      (by decide) (by decide)).1.mpr (by decide)⟩

/-! ## Default initialisation -/

theorem default_slots_upto (l : List android_slot_metadata) (n : Nat) (hn : n ≤ l.length) :
    default_slots n l = List.replicate n default_metadata ++ l.drop n := by
  unfold default_slots
  induction n with
  | zero => simp
  | succ n ih =>
    have hlt : n < l.length := by omega
    rw [List.range_succ, List.foldl_append, ih (by omega)]
    simp only [List.foldl_cons, List.foldl_nil]
    rw [List.set_append_right _ _ (by simp), List.length_replicate, Nat.sub_self,
      List.drop_eq_getElem_cons hlt, List.set_cons_zero, List.replicate_succ',
      List.append_assoc]
    rfl

theorem default_slots_all (l : List android_slot_metadata) :
    default_slots l.length l = List.replicate l.length default_metadata := by
  rw [default_slots_upto l l.length (le_refl _)]
  simp

theorem bytes_before_crc_set_crc (abc : android_bootloader_control) (c : Nat) :
    bytes_before_crc { abc with crc32_le := c } = bytes_before_crc abc := rfl

theorem crc_valid_set_crc (crc32 : Nat → List Nat → Nat) (abc : android_bootloader_control) :
    crc_valid crc32 { abc with crc32_le := android_boot_control_compute_crc crc32 abc } := rfl

theorem default_slot_info (cfg : ab_config) (crc32 : Nat → List Nat → Nat)
    (abc : android_bootloader_control) :
    (android_boot_control_default cfg crc32 abc).slot_info =
      List.replicate abc.slot_info.length default_metadata := by
  unfold android_boot_control_default
  exact default_slots_all abc.slot_info

theorem default_nb_slot (cfg : ab_config) (crc32 : Nat → List Nat → Nat)
    (abc : android_bootloader_control) :
    (android_boot_control_default cfg crc32 abc).nb_slot = abc.slot_info.length := rfl

theorem default_crc_valid (cfg : ab_config) (crc32 : Nat → List Nat → Nat)
    (abc : android_bootloader_control) :
    crc_valid crc32 (android_boot_control_default cfg crc32 abc) := rfl

/-- A block whose checksum test fails goes through the default and reaches
line 208 with `store_needed` set. -/
theorem loaded_of_crc_mismatch (cfg : ab_config) (crc32 : Nat → List Nat → Nat)
    (buf : abc_data_block) (hcrc : ¬ crc_valid crc32 buf.abc) :
    android_ab_select_loaded cfg crc32 buf =
      select_from crc32 buf (android_boot_control_default cfg crc32 buf.abc) true := by
  unfold crc_valid at hcrc
  have hm : decide (buf.abc.crc32_le ≠ android_boot_control_compute_crc crc32 buf.abc) = true := by
    simp [hcrc]
  have hmagic : ¬ ((android_boot_control_default cfg crc32 buf.abc).magic ≠
      cfg.ANDROID_BOOT_CTRL_MAGIC) := fun h => h rfl
  have hver : ¬ ((android_boot_control_default cfg crc32 buf.abc).version >
      cfg.ANDROID_BOOT_CTRL_VERSION) := by
    show ¬ (cfg.ANDROID_BOOT_CTRL_VERSION > cfg.ANDROID_BOOT_CTRL_VERSION)
    omega
  have hclamp : decide ((android_boot_control_default cfg crc32 buf.abc).nb_slot >
      (android_boot_control_default cfg crc32 buf.abc).slot_info.length) = false := by
    rw [default_slot_info, default_nb_slot]
    simp
  unfold android_ab_select_loaded
  simp only [hm, if_true]
  rw [if_neg hmagic, if_neg hver]
  simp only [hclamp, Bool.false_eq_true, if_false]
  exact tail_eq_select_from _ _ _ _

theorem slot_at_replicate (abc : android_bootloader_control) (n : Nat)
    (d : android_slot_metadata) (h : abc.slot_info = List.replicate n d) (j : Nat) (hj : j < n) :
    slot_at abc j = d := by
  unfold slot_at
  rw [h, List.getD_eq_getElem?_getD, List.getElem?_replicate]
  simp [hj]

/-- On an array of equal eligible records the loop picks slot 0, or -1 when
the array is empty. -/
theorem select_loop_replicate (abc : android_bootloader_control) (d : android_slot_metadata)
    (h : abc.slot_info = List.replicate abc.nb_slot d)
    (hd : d.verity_corrupted = 0 ∧ 0 < d.tries_remaining) :
    select_loop abc = if abc.nb_slot = 0 then -1 else 0 := by
  rw [select_loop_eq]
  have hel : ∀ j, j < abc.nb_slot → eligible abc j := by
    intro j hj
    unfold eligible
    rw [slot_at_replicate abc abc.nb_slot d h j hj]
    exact hd
  rcases loop_inv_upto abc abc.nb_slot with ⟨hr, hnone⟩ | ⟨k, hr, hk, _, _, hleast⟩
  · by_cases h0 : abc.nb_slot = 0
    · rw [hr, if_pos h0]
    · exact absurd (hel 0 (by omega)) (hnone 0 (by omega))
  · have h0 : abc.nb_slot ≠ 0 := by omega
    rw [hr, if_neg h0]
    by_cases hk0 : k = 0
    · rw [hk0]; rfl
    · have := hleast 0 (by omega) (hel 0 (by omega))
      rw [slot_at_replicate abc abc.nb_slot d h k hk,
        slot_at_replicate abc abc.nb_slot d h 0 (by omega)] at this
      exact absurd this (ranks_higher_irrefl d)

theorem select_loop_default (cfg : ab_config) (crc32 : Nat → List Nat → Nat)
    (abc : android_bootloader_control) :
    select_loop (android_boot_control_default cfg crc32 abc) =
      if abc.slot_info.length = 0 then -1 else 0 := by
  have := select_loop_replicate (android_boot_control_default cfg crc32 abc) default_metadata
    (by rw [default_slot_info, default_nb_slot]) (by decide)
  rw [this, default_nb_slot]

/-! ## The block `android_ab_select` leaves -/

theorem suffixed_slot_info (abc : android_bootloader_control) (slot : Int) :
    (suffixed abc slot).slot_info = abc.slot_info := by
  unfold suffixed; split_ifs <;> rfl

theorem decremented_slot_suffix (abc : android_bootloader_control) (slot : Int) :
    (decremented abc slot).slot_suffix = abc.slot_suffix := by
  unfold decremented; split_ifs <;> rfl

theorem suffixed_slot_suffix (abc : android_bootloader_control) (slot : Int) (h : 0 ≤ slot) :
    (suffixed abc slot).slot_suffix = suffix_of slot := by
  unfold suffixed
  by_cases hs : abc.slot_suffix = suffix_of slot
  · rw [if_neg (by simp [hs])]; exact hs
  · rw [if_pos ⟨h, hs⟩]

theorem select_from_slot_info (crc32 : Nat → List Nat → Nat) (buf : abc_data_block)
    (abc : android_bootloader_control) (store_needed : Bool) :
    (select_from crc32 buf abc store_needed).buf.abc.slot_info =
      (decremented abc (select_loop abc)).slot_info := by
  unfold select_from
  simp only []
  split_ifs
  · exact suffixed_slot_info _ _
  · exact suffixed_slot_info _ _

theorem select_from_slot_suffix (crc32 : Nat → List Nat → Nat) (buf : abc_data_block)
    (abc : android_bootloader_control) (store_needed : Bool) (h : 0 ≤ select_loop abc) :
    (select_from crc32 buf abc store_needed).buf.abc.slot_suffix =
      suffix_of (select_loop abc) := by
  unfold select_from
  simp only []
  split_ifs
  · exact suffixed_slot_suffix _ _ h
  · exact suffixed_slot_suffix _ _ h

theorem select_from_stored (crc32 : Nat → List Nat → Nat) (buf : abc_data_block)
    (abc : android_bootloader_control) (store_needed : Bool) :
    (select_from crc32 buf abc store_needed).stored =
      (store_needed ||
        decide (select_loop abc ≥ 0 ∧ (slot_at abc (select_loop abc).toNat).successful_boot = 0) ||
        decide (select_loop abc ≥ 0 ∧ abc.slot_suffix ≠ suffix_of (select_loop abc))) := by
  unfold select_from
  simp only [decremented_slot_suffix]

theorem select_from_crc_valid (crc32 : Nat → List Nat → Nat) (buf : abc_data_block)
    (abc : android_bootloader_control) (store_needed : Bool)
    (h : (select_from crc32 buf abc store_needed).stored = true) :
    crc_valid crc32 (select_from crc32 buf abc store_needed).buf.abc := by
  unfold select_from at h ⊢
  simp only [] at h ⊢
  rw [if_pos h]
  exact crc_valid_set_crc _ _

theorem suffix_of_nat (i : Nat) : suffix_of (i : Int) = [(97 + i) % 256, 0, 0, 0] := by
  unfold suffix_of ANDROID_BOOT_SLOT_NAME
  have : ((97 + (i : Int)) % 256).toNat = (97 + i) % 256 := by omega
  rw [this]

theorem slot_at_decremented_same (abc : android_bootloader_control) (w : Nat)
    (hw : w < abc.slot_info.length) (hs : (slot_at abc w).successful_boot = 0) :
    slot_at (decremented abc (w : Int)) w = tries_decrement (slot_at abc w) := by
  unfold decremented
  have h0 : (w : Int) ≥ 0 := by omega
  rw [Int.toNat_ofNat, if_pos ⟨h0, hs⟩]
  unfold slot_at
  simp only []
  rw [List.getD_eq_getElem?_getD, List.getElem?_set_self hw]
  rfl

theorem decremented_of_successful (abc : android_bootloader_control) (w : Nat)
    (hs : (slot_at abc w).successful_boot ≠ 0) :
    decremented abc (w : Int) = abc := by
  unfold decremented
  rw [Int.toNat_ofNat, if_neg (fun h => hs h.2)]

theorem slot_at_congr {abc abc' : android_bootloader_control}
    (h : abc'.slot_info = abc.slot_info) (i : Nat) : slot_at abc' i = slot_at abc i := by
  unfold slot_at; rw [h]

/-- For a valid block that returns `w`, the loop over the clamped block ended
on `w`, a bootable slot. -/
theorem loop_of_ret (cfg : ab_config) (crc32 : Nat → List Nat → Nat) (buf : abc_data_block)
    (hv : valid_block cfg crc32 buf.abc) (w : Nat)
    (hw : (android_ab_select_loaded cfg crc32 buf).ret = (w : Int)) :
    select_loop (clamped buf.abc) = (w : Int) ∧ bootable buf.abc w := by
  have hb : bootable buf.abc w := by
    rcases loaded_ret_cases cfg crc32 buf hv with ⟨hr, _⟩ | ⟨k, hr, hk, _, _⟩
    · rw [hr] at hw; omega
    · rw [hr] at hw
      have : k = w := by omega
      rw [← this]; exact hk
  refine ⟨?_, hb⟩
  rw [loaded_of_valid cfg crc32 buf hv, select_from_ret] at hw
  by_cases h : select_loop (clamped buf.abc) < 0
  · rw [if_pos h] at hw; omega
  · rw [if_neg h] at hw; exact hw

/-! ## Claims about the block written back -/

/-- C6. For a valid block with winner `w`: when `w` is not marked successful,
the block left has `w.tries_remaining` one below its loaded value and the
store is called on it; when `w` is marked successful, `w.tries_remaining` is
as loaded. -/
theorem select_decrements_unsuccessful_winner {Dev : Type} (cfg : ab_config)
    (crc32 : Nat → List Nat → Nat) (ops : blk_ops Dev) (dev : Dev) (part : disk_partition_t)
    (buf : abc_data_block)
    (hload : android_boot_control_create_from_disk cfg ops dev part = some buf)
    (hv : valid_block cfg crc32 buf.abc) (w : Nat)
    (hw : (android_ab_select cfg crc32 ops dev part).1 = (w : Int)) :
    ((slot_at buf.abc w).successful_boot = 0 →
      (slot_at (android_ab_select_loaded cfg crc32 buf).buf.abc w).tries_remaining + 1 =
        (slot_at buf.abc w).tries_remaining ∧
      (android_ab_select_loaded cfg crc32 buf).stored = true ∧
      (android_ab_select cfg crc32 ops dev part).2 =
        (android_boot_control_store cfg ops (android_ab_select_loaded cfg crc32 buf).buf
          dev part).2) ∧
    ((slot_at buf.abc w).successful_boot ≠ 0 →
      (slot_at (android_ab_select_loaded cfg crc32 buf).buf.abc w).tries_remaining =
        (slot_at buf.abc w).tries_remaining) := by
  rw [select_ret_of_load cfg crc32 ops dev part buf hload] at hw
  obtain ⟨hloop, hb⟩ := loop_of_ret cfg crc32 buf hv w hw
  have hinfo : (android_ab_select_loaded cfg crc32 buf).buf.abc.slot_info =
      (decremented (clamped buf.abc) (w : Int)).slot_info := by
    rw [loaded_of_valid cfg crc32 buf hv, select_from_slot_info, hloop]
  have hcl : slot_at (clamped buf.abc) w = slot_at buf.abc w :=
    slot_at_congr (clamped_slot_info buf.abc) w
  constructor
  · intro hs
    have hst : (android_ab_select_loaded cfg crc32 buf).stored = true := by
      rw [loaded_of_valid cfg crc32 buf hv, select_from_stored, hloop, Int.toNat_ofNat, hcl]
      have h0 : (w : Int) ≥ 0 := by omega
      simp [hs, h0]
    refine ⟨?_, hst, ?_⟩
    · rw [slot_at_congr hinfo w, slot_at_decremented_same (clamped buf.abc) w
        (by rw [clamped_slot_info]; exact hb.2.1) (by rw [hcl]; exact hs), hcl]
      have := hb.2.2.2
      show (slot_at buf.abc w).tries_remaining - 1 + 1 = (slot_at buf.abc w).tries_remaining
      omega
    · rw [select_of_load cfg crc32 ops dev part buf hload, if_pos hst]
  · intro hs
    rw [slot_at_congr hinfo w, decremented_of_successful (clamped buf.abc) w
      (by rw [hcl]; exact hs), hcl]

/-- C7. Whenever `android_ab_select` returns a slot index `i`, the block left
has `slot_suffix` equal to the byte `'a' + i` followed by three zero bytes, and
when the loaded suffix differed from these bytes the store is called on the
block.  The first byte is the `char` the source stores, `(97 + i) mod 256`,
which is `97 + i` for every index below 159. -/
theorem select_sets_suffix_of_winner {Dev : Type} (cfg : ab_config)
    (crc32 : Nat → List Nat → Nat) (ops : blk_ops Dev) (dev : Dev) (part : disk_partition_t)
    (buf : abc_data_block)
    (hload : android_boot_control_create_from_disk cfg ops dev part = some buf) (i : Nat)
    (hi : (android_ab_select cfg crc32 ops dev part).1 = (i : Int)) :
    (android_ab_select_loaded cfg crc32 buf).buf.abc.slot_suffix = [(97 + i) % 256, 0, 0, 0] ∧
    (i < 159 →
      (android_ab_select_loaded cfg crc32 buf).buf.abc.slot_suffix = [97 + i, 0, 0, 0]) ∧
    (buf.abc.slot_suffix ≠ [(97 + i) % 256, 0, 0, 0] →
      (android_ab_select_loaded cfg crc32 buf).stored = true ∧
      (android_ab_select cfg crc32 ops dev part).2 =
        (android_boot_control_store cfg ops (android_ab_select_loaded cfg crc32 buf).buf
          dev part).2) := by
  rw [select_ret_of_load cfg crc32 ops dev part buf hload] at hi
  have key : (android_ab_select_loaded cfg crc32 buf).buf.abc.slot_suffix =
        [(97 + i) % 256, 0, 0, 0] ∧
      (buf.abc.slot_suffix ≠ [(97 + i) % 256, 0, 0, 0] →
        (android_ab_select_loaded cfg crc32 buf).stored = true) := by
    by_cases hcrc : crc_valid crc32 buf.abc
    · by_cases hv : valid_block cfg crc32 buf.abc
      · obtain ⟨hloop, _⟩ := loop_of_ret cfg crc32 buf hv i hi
        have h0 : (0 : Int) ≤ select_loop (clamped buf.abc) := by rw [hloop]; omega
        have hsuf : (clamped buf.abc).slot_suffix = buf.abc.slot_suffix := by
          unfold clamped; split_ifs <;> rfl
        rw [loaded_of_valid cfg crc32 buf hv, select_from_slot_suffix _ _ _ _ h0,
          select_from_stored, hloop, suffix_of_nat, hsuf]
        refine ⟨rfl, fun hne => ?_⟩
        have hi0 : (i : Int) ≥ 0 := by omega
        simp [hne, hi0]
      · rw [loaded_ret_of_crc_valid_not_valid cfg crc32 buf hcrc hv] at hi
        omega
    · rw [loaded_of_crc_mismatch cfg crc32 buf hcrc] at hi ⊢
      rw [select_from_ret] at hi
      have hloop : select_loop (android_boot_control_default cfg crc32 buf.abc) = (i : Int) := by
        by_cases h : select_loop (android_boot_control_default cfg crc32 buf.abc) < 0
        · rw [if_pos h] at hi; omega
        · rw [if_neg h] at hi; exact hi
      have h0 : (0 : Int) ≤ select_loop (android_boot_control_default cfg crc32 buf.abc) := by
        rw [hloop]; omega
      rw [select_from_slot_suffix _ _ _ _ h0, select_from_stored, hloop, suffix_of_nat]
      exact ⟨rfl, fun _ => by simp⟩
  refine ⟨key.1, fun hlt => ?_, fun hne => ⟨key.2 hne, ?_⟩⟩
  · rw [key.1, Nat.mod_eq_of_lt (by omega)]
  · rw [select_of_load cfg crc32 ops dev part buf hload, if_pos (key.2 hne)]

theorem slot_info_of_crc_mismatch (cfg : ab_config) (crc32 : Nat → List Nat → Nat)
    (buf : abc_data_block) (hcrc : ¬ crc_valid crc32 buf.abc) :
    (android_ab_select_loaded cfg crc32 buf).buf.abc.slot_info =
      (List.replicate buf.abc.slot_info.length default_metadata).set 0
        (tries_decrement default_metadata) := by
  rw [loaded_of_crc_mismatch cfg crc32 buf hcrc, select_from_slot_info, select_loop_default]
  by_cases h0 : buf.abc.slot_info.length = 0
  · rw [if_pos h0]
    unfold decremented
    rw [if_neg (by omega), default_slot_info, h0]
    rfl
  · rw [if_neg h0]
    have hs0 : slot_at (android_boot_control_default cfg crc32 buf.abc) 0 = default_metadata :=
      slot_at_replicate _ _ _ (default_slot_info cfg crc32 buf.abc) 0 (by omega)
    unfold decremented
    rw [Int.toNat_zero, hs0, if_pos ⟨le_refl _, rfl⟩]
    simp only []
    rw [default_slot_info]

/-- C8, as amended. For a loaded block whose stored checksum differs from the
checksum of the bytes before it, the store is called on a block in which slot
0 is {priority 15, tries_remaining 6, not successful, not corrupted}, every
other slot is {priority 15, tries_remaining 7, not successful, not corrupted},
and `crc32_le` is the checksum of the bytes before it. -/
theorem crc_mismatch_writes_default_after_decrement {Dev : Type} (cfg : ab_config)
    (crc32 : Nat → List Nat → Nat) (ops : blk_ops Dev) (dev : Dev) (part : disk_partition_t)
    (buf : abc_data_block)
    (hload : android_boot_control_create_from_disk cfg ops dev part = some buf)
    (hcrc : buf.abc.crc32_le ≠ android_boot_control_compute_crc crc32 buf.abc) :
    (android_ab_select_loaded cfg crc32 buf).stored = true ∧
    (android_ab_select cfg crc32 ops dev part).2 =
      (android_boot_control_store cfg ops (android_ab_select_loaded cfg crc32 buf).buf
        dev part).2 ∧
    (android_ab_select_loaded cfg crc32 buf).buf.abc.slot_info.length =
      buf.abc.slot_info.length ∧
    (0 < buf.abc.slot_info.length →
      slot_at (android_ab_select_loaded cfg crc32 buf).buf.abc 0 =
        { priority := 15, tries_remaining := 6, successful_boot := 0, verity_corrupted := 0,
          reserved := 0 }) ∧
    (∀ i, 0 < i → i < buf.abc.slot_info.length →
      slot_at (android_ab_select_loaded cfg crc32 buf).buf.abc i =
        { priority := 15, tries_remaining := 7, successful_boot := 0, verity_corrupted := 0,
          reserved := 0 }) ∧
    (android_ab_select_loaded cfg crc32 buf).buf.abc.crc32_le =
      crc32 0 (bytes_before_crc (android_ab_select_loaded cfg crc32 buf).buf.abc) := by
  have hcrc' : ¬ crc_valid crc32 buf.abc := hcrc
  have hst : (android_ab_select_loaded cfg crc32 buf).stored = true := by
    rw [loaded_of_crc_mismatch cfg crc32 buf hcrc', select_from_stored]
    simp
  have hinfo := slot_info_of_crc_mismatch cfg crc32 buf hcrc'
  refine ⟨hst, ?_, ?_, ?_, ?_, ?_⟩
  · rw [select_of_load cfg crc32 ops dev part buf hload, if_pos hst]
  · rw [hinfo]; simp
  · intro h0
    unfold slot_at
    rw [hinfo, List.getD_eq_getElem?_getD, List.getElem?_set_self (by simpa using h0)]
    rfl
  · intro i hi0 hi
    unfold slot_at
    rw [hinfo, List.getD_eq_getElem?_getD, List.getElem?_set_ne (by omega),
      List.getElem?_replicate]
    simp [hi]
    rfl
  · have := select_from_crc_valid crc32 buf (android_boot_control_default cfg crc32 buf.abc)
      true (by rw [← loaded_of_crc_mismatch cfg crc32 buf hcrc']; exact hst)
    rw [← loaded_of_crc_mismatch cfg crc32 buf hcrc'] at this
    exact this

/-- C9. `android_boot_control_default` yields a block fixed by the array sizes
alone, whatever the block held before: current magic and version, `nb_slot`
the size of the slot array, every slot {priority 15, tries_remaining 7,
successful_boot 0, verity_corrupted 0, reserved 0}, suffix `a` and three zero
bytes, `reserved0` and `reserved1` zero, and `crc32_le` the checksum from seed
0 of the bytes before it. -/
theorem default_is_fixed_image (cfg : ab_config) (crc32 : Nat → List Nat → Nat)
    (abc : android_bootloader_control) :
    android_boot_control_default cfg crc32 abc =
      default_image cfg crc32 abc.slot_info.length abc.reserved0.length abc.reserved1.length ∧
    (android_boot_control_default cfg crc32 abc).magic = cfg.ANDROID_BOOT_CTRL_MAGIC ∧
    (android_boot_control_default cfg crc32 abc).version = cfg.ANDROID_BOOT_CTRL_VERSION ∧
    (android_boot_control_default cfg crc32 abc).nb_slot = abc.slot_info.length ∧
    (android_boot_control_default cfg crc32 abc).slot_info =
      List.replicate abc.slot_info.length
        { priority := 15, tries_remaining := 7, successful_boot := 0, verity_corrupted := 0,
          reserved := 0 } ∧
    (android_boot_control_default cfg crc32 abc).slot_suffix = [97, 0, 0, 0] ∧
    (android_boot_control_default cfg crc32 abc).reserved0 =
      List.replicate abc.reserved0.length 0 ∧
    (android_boot_control_default cfg crc32 abc).reserved1 =
      List.replicate abc.reserved1.length 0 ∧
    (android_boot_control_default cfg crc32 abc).crc32_le =
      crc32 0 (bytes_before_crc (android_boot_control_default cfg crc32 abc)) := by
  have himg : android_boot_control_default cfg crc32 abc =
      default_image cfg crc32 abc.slot_info.length abc.reserved0.length
        abc.reserved1.length := by
    unfold android_boot_control_default default_image
    simp only [default_slots_all, android_boot_control_compute_crc, bytes_before_crc]
    rfl
  refine ⟨himg, rfl, rfl, rfl, ?_, rfl, rfl, rfl, rfl⟩
  rw [himg]
  rfl

/-- C10. For a loaded block whose checksum is valid and whose magic is not the
current constant, `android_ab_select` returns -1, leaves the device as it was
and does not call the store, whatever the version, `nb_slot` and slots are. -/
theorem select_bad_magic_fails_without_write {Dev : Type} (cfg : ab_config)
    (crc32 : Nat → List Nat → Nat) (ops : blk_ops Dev) (dev : Dev) (part : disk_partition_t)
    (buf : abc_data_block)
    (hload : android_boot_control_create_from_disk cfg ops dev part = some buf)
    (hcrc : buf.abc.crc32_le = android_boot_control_compute_crc crc32 buf.abc)
    (hmagic : buf.abc.magic ≠ cfg.ANDROID_BOOT_CTRL_MAGIC) :
    (android_ab_select cfg crc32 ops dev part).1 = -1 ∧
    (android_ab_select cfg crc32 ops dev part).2 = dev ∧
    (android_ab_select_loaded cfg crc32 buf).stored = false := by
  rw [select_of_load cfg crc32 ops dev part buf hload,
    loaded_of_bad_magic cfg crc32 buf hcrc hmagic]
  exact ⟨rfl, rfl, rfl⟩

/-- C6 at `block_ab`: B wins, is not marked successful, and goes from five
tries to four in the block the store is called on. -/
theorem select_decrements_unsuccessful_winner_witness :
    android_boot_control_create_from_disk cfg0 region_ops block_ab part0 = some block_ab ∧
    valid_block cfg0 sum32 block_ab.abc ∧
    (android_ab_select cfg0 sum32 region_ops block_ab part0).1 = 1 ∧
    (slot_at block_ab.abc 1).successful_boot = 0 ∧
    (slot_at block_ab.abc 1).tries_remaining = 5 ∧
    (slot_at (android_ab_select_loaded cfg0 sum32 block_ab).buf.abc 1).tries_remaining + 1 =
      (slot_at block_ab.abc 1).tries_remaining ∧
    (android_ab_select_loaded cfg0 sum32 block_ab).stored = true ∧
    (android_ab_select cfg0 sum32 region_ops block_ab part0).2 =
      (android_boot_control_store cfg0 region_ops (android_ab_select_loaded cfg0 sum32 block_ab).buf
        block_ab part0).2 :=
  ⟨by decide, by decide, by decide, by decide, by decide,
    (select_decrements_unsuccessful_winner cfg0 sum32 region_ops block_ab part0 block_ab
      (by decide) (by decide) 1 (by decide)).1 (by decide)⟩

/-- C7 at `block_ab`: slot 1 is returned, the suffix was "a" and the block left
has suffix "b". -/
theorem select_sets_suffix_of_winner_witness :
    android_boot_control_create_from_disk cfg0 region_ops block_ab part0 = some block_ab ∧
    (android_ab_select cfg0 sum32 region_ops block_ab part0).1 = 1 ∧
    block_ab.abc.slot_suffix = [97, 0, 0, 0] ∧
    (android_ab_select_loaded cfg0 sum32 block_ab).buf.abc.slot_suffix = [98, 0, 0, 0] ∧
    (android_ab_select_loaded cfg0 sum32 block_ab).stored = true :=
  ⟨by decide, by decide, by decide,
    (select_sets_suffix_of_winner cfg0 sum32 region_ops block_ab part0 block_ab
      (by decide) 1 (by decide)).1,
    ((select_sets_suffix_of_winner cfg0 sum32 region_ops block_ab part0 block_ab
      (by decide) 1 (by decide)).2.2 (by decide)).1⟩

/-- C8 as stated fails at `block_badcrc`: the checksum does not match, the
block is written back (the device of `region_ops` is the block written), and
slot 0 of it has six tries, not seven. -/
theorem crc_mismatch_all_slots_default_counterexample :
    android_boot_control_create_from_disk cfg0 region_ops block_badcrc part0 =
      some block_badcrc ∧
    block_badcrc.abc.crc32_le ≠ android_boot_control_compute_crc sum32 block_badcrc.abc ∧
    (android_ab_select_loaded cfg0 sum32 block_badcrc).stored = true ∧
    (android_ab_select cfg0 sum32 region_ops block_badcrc part0).2 =
      (android_ab_select_loaded cfg0 sum32 block_badcrc).buf ∧
    ¬ (∀ s ∈ (android_ab_select cfg0 sum32 region_ops block_badcrc part0).2.abc.slot_info,
        s.priority = 15 ∧ s.tries_remaining = 7 ∧ s.successful_boot = 0 ∧
          s.verity_corrupted = 0) ∧
    (slot_at (android_ab_select cfg0 sum32 region_ops block_badcrc part0).2.abc 0).tries_remaining
      = 6 := by
  decide

/-- C8 as amended, at `block_badcrc`. -/
theorem crc_mismatch_writes_default_after_decrement_witness :
    android_boot_control_create_from_disk cfg0 region_ops block_badcrc part0 =
      some block_badcrc ∧
    block_badcrc.abc.crc32_le ≠ android_boot_control_compute_crc sum32 block_badcrc.abc ∧
    (android_ab_select_loaded cfg0 sum32 block_badcrc).stored = true ∧
    slot_at (android_ab_select_loaded cfg0 sum32 block_badcrc).buf.abc 0 =
      { priority := 15, tries_remaining := 6, successful_boot := 0, verity_corrupted := 0,
        reserved := 0 } ∧
    slot_at (android_ab_select_loaded cfg0 sum32 block_badcrc).buf.abc 1 =
      { priority := 15, tries_remaining := 7, successful_boot := 0, verity_corrupted := 0,
        reserved := 0 } :=
  ⟨by decide, by decide,
    (crc_mismatch_writes_default_after_decrement cfg0 sum32 region_ops block_badcrc part0
      block_badcrc (by decide) (by decide)).1,
    (crc_mismatch_writes_default_after_decrement cfg0 sum32 region_ops block_badcrc part0
      block_badcrc (by decide) (by decide)).2.2.2.1 (by decide),
    (crc_mismatch_writes_default_after_decrement cfg0 sum32 region_ops block_badcrc part0
      block_badcrc (by decide) (by decide)).2.2.2.2.1 1 (by decide) (by decide)⟩

/-- C10 at `block_foreign`: the checksum is right, the magic is not, and the
call returns -1 with the device as it was. -/
theorem select_bad_magic_fails_without_write_witness :
    android_boot_control_create_from_disk cfg0 region_ops block_foreign part0 =
      some block_foreign ∧
    block_foreign.abc.crc32_le = android_boot_control_compute_crc sum32 block_foreign.abc ∧
    block_foreign.abc.magic ≠ cfg0.ANDROID_BOOT_CTRL_MAGIC ∧
    (android_ab_select cfg0 sum32 region_ops block_foreign part0).1 = -1 ∧
    (android_ab_select cfg0 sum32 region_ops block_foreign part0).2 = block_foreign ∧
    (android_ab_select_loaded cfg0 sum32 block_foreign).stored = false :=
  ⟨by decide, by decide, by decide,
    select_bad_magic_fails_without_write cfg0 sum32 region_ops block_foreign part0 block_foreign
      (by decide) (by decide) (by decide)⟩

/-! ## What `android_ab_select` leaves untouched -/

theorem decremented_frame (abc : android_bootloader_control) (slot : Int) :
    (decremented abc slot).magic = abc.magic ∧ (decremented abc slot).version = abc.version ∧
    (decremented abc slot).nb_slot = abc.nb_slot ∧
    (decremented abc slot).reserved0 = abc.reserved0 ∧
    (decremented abc slot).reserved1 = abc.reserved1 ∧
    (decremented abc slot).crc32_le = abc.crc32_le ∧
    (decremented abc slot).slot_info.length = abc.slot_info.length := by
  unfold decremented
  split_ifs
  · exact ⟨rfl, rfl, rfl, rfl, rfl, rfl, by simp⟩
  · exact ⟨rfl, rfl, rfl, rfl, rfl, rfl, rfl⟩

theorem suffixed_frame (abc : android_bootloader_control) (slot : Int) :
    (suffixed abc slot).magic = abc.magic ∧ (suffixed abc slot).version = abc.version ∧
    (suffixed abc slot).nb_slot = abc.nb_slot ∧
    (suffixed abc slot).reserved0 = abc.reserved0 ∧
    (suffixed abc slot).reserved1 = abc.reserved1 ∧
    (suffixed abc slot).crc32_le = abc.crc32_le := by
  unfold suffixed
  split_ifs <;> exact ⟨rfl, rfl, rfl, rfl, rfl, rfl⟩

/-- The fields lines 208-265 never write, and the bytes after the structure. -/
theorem select_from_frame (crc32 : Nat → List Nat → Nat) (buf : abc_data_block)
    (abc : android_bootloader_control) (store_needed : Bool) :
    (select_from crc32 buf abc store_needed).buf.tail = buf.tail ∧
    (select_from crc32 buf abc store_needed).buf.abc.magic = abc.magic ∧
    (select_from crc32 buf abc store_needed).buf.abc.version = abc.version ∧
    (select_from crc32 buf abc store_needed).buf.abc.nb_slot = abc.nb_slot ∧
    (select_from crc32 buf abc store_needed).buf.abc.reserved0 = abc.reserved0 ∧
    (select_from crc32 buf abc store_needed).buf.abc.reserved1 = abc.reserved1 ∧
    (select_from crc32 buf abc store_needed).buf.abc.slot_info.length =
      abc.slot_info.length := by
  have hd := decremented_frame abc (select_loop abc)
  have hs := suffixed_frame (decremented abc (select_loop abc)) (select_loop abc)
  have hl := suffixed_slot_info (decremented abc (select_loop abc)) (select_loop abc)
  unfold select_from
  simp only []
  split_ifs
  · exact ⟨trivial, hs.1.trans hd.1, hs.2.1.trans hd.2.1, hs.2.2.1.trans hd.2.2.1,
      hs.2.2.2.1.trans hd.2.2.2.1, hs.2.2.2.2.1.trans hd.2.2.2.2.1, by rw [hl]; exact hd.2.2.2.2.2.2⟩
  · exact ⟨trivial, hs.1.trans hd.1, hs.2.1.trans hd.2.1, hs.2.2.1.trans hd.2.2.1,
      hs.2.2.2.1.trans hd.2.2.2.1, hs.2.2.2.2.1.trans hd.2.2.2.2.1, by rw [hl]; exact hd.2.2.2.2.2.2⟩

theorem clamped_frame (abc : android_bootloader_control) :
    (clamped abc).magic = abc.magic ∧ (clamped abc).version = abc.version ∧
    (clamped abc).reserved0 = abc.reserved0 ∧ (clamped abc).reserved1 = abc.reserved1 ∧
    (clamped abc).slot_suffix = abc.slot_suffix ∧ (clamped abc).crc32_le = abc.crc32_le := by
  unfold clamped
  split_ifs <;> exact ⟨rfl, rfl, rfl, rfl, rfl, rfl⟩

theorem clamped_le (abc : android_bootloader_control) :
    (clamped abc).nb_slot ≤ (clamped abc).slot_info.length := by
  rw [clamped_nb_slot, clamped_slot_info]
  omega

theorem clamped_of_le (abc : android_bootloader_control)
    (h : abc.nb_slot ≤ abc.slot_info.length) : clamped abc = abc := by
  unfold clamped
  rw [if_neg (by omega)]

/-- A block with a good checksum either fails the magic or version test and is
left as loaded without a store, or reaches the selection after the clamp. -/
theorem loaded_of_crc_valid (cfg : ab_config) (crc32 : Nat → List Nat → Nat)
    (buf : abc_data_block) (hcrc : crc_valid crc32 buf.abc) :
    (¬ valid_block cfg crc32 buf.abc ∧
      android_ab_select_loaded cfg crc32 buf = { ret := -1, buf := buf, stored := false }) ∨
    (valid_block cfg crc32 buf.abc ∧
      android_ab_select_loaded cfg crc32 buf =
        select_from crc32 buf (clamped buf.abc)
          (decide (buf.abc.nb_slot > buf.abc.slot_info.length))) := by
  by_cases hv : valid_block cfg crc32 buf.abc
  · exact Or.inr ⟨hv, loaded_of_valid cfg crc32 buf hv⟩
  · left
    refine ⟨hv, ?_⟩
    by_cases hmagic : buf.abc.magic = cfg.ANDROID_BOOT_CTRL_MAGIC
    · have hver : buf.abc.version > cfg.ANDROID_BOOT_CTRL_VERSION := by
        by_contra h
        exact hv ⟨hcrc, hmagic, by omega⟩
      exact loaded_of_bad_version cfg crc32 buf hcrc hmagic hver
    · exact loaded_of_bad_magic cfg crc32 buf hcrc hmagic

/-- A block the store is called on passes the three checks and has `nb_slot`
within the array. -/
theorem stored_block_valid (cfg : ab_config) (crc32 : Nat → List Nat → Nat)
    (buf : abc_data_block) (hst : (android_ab_select_loaded cfg crc32 buf).stored = true) :
    valid_block cfg crc32 (android_ab_select_loaded cfg crc32 buf).buf.abc ∧
    (android_ab_select_loaded cfg crc32 buf).buf.abc.nb_slot ≤
      (android_ab_select_loaded cfg crc32 buf).buf.abc.slot_info.length := by
  by_cases hcrc : crc_valid crc32 buf.abc
  · rcases loaded_of_crc_valid cfg crc32 buf hcrc with ⟨_, h⟩ | ⟨hv, h⟩
    · rw [h] at hst
      simp at hst
    · rw [h] at hst ⊢
      have hf := select_from_frame crc32 buf (clamped buf.abc)
        (decide (buf.abc.nb_slot > buf.abc.slot_info.length))
      have hc := clamped_frame buf.abc
      refine ⟨⟨select_from_crc_valid _ _ _ _ hst, ?_, ?_⟩, ?_⟩
      · rw [hf.2.1, hc.1]; exact hv.2.1
      · rw [hf.2.2.1, hc.2.1]; exact hv.2.2
      · rw [hf.2.2.2.1, hf.2.2.2.2.2.2]; exact clamped_le buf.abc
  · have h := loaded_of_crc_mismatch cfg crc32 buf hcrc
    rw [h] at hst ⊢
    have hf := select_from_frame crc32 buf (android_boot_control_default cfg crc32 buf.abc) true
    refine ⟨⟨select_from_crc_valid _ _ _ _ hst, ?_, ?_⟩, ?_⟩
    · rw [hf.2.1]; rfl
    · rw [hf.2.2.1]; exact le_refl _
    · rw [hf.2.2.2.1, hf.2.2.2.2.2.2, default_nb_slot, default_slot_info]
      simp

/-! ## Claims about the checks, the clamp and the store -/

/-- C11. For a loaded block with a valid checksum and the correct magic: when
its version is above `ANDROID_BOOT_CTRL_VERSION`, `android_ab_select` returns
-1, leaves the device as it was and does not call the store, whatever
`nb_slot` is; when its version is at most that constant, the call goes on to
lines 202-265 on the loaded block, and returns a slot when one is bootable. -/
theorem select_newer_version_fails_without_write {Dev : Type} (cfg : ab_config)
    (crc32 : Nat → List Nat → Nat) (ops : blk_ops Dev) (dev : Dev) (part : disk_partition_t)
    (buf : abc_data_block)
    (hload : android_boot_control_create_from_disk cfg ops dev part = some buf)
    (hcrc : buf.abc.crc32_le = android_boot_control_compute_crc crc32 buf.abc)
    (hmagic : buf.abc.magic = cfg.ANDROID_BOOT_CTRL_MAGIC) :
    (buf.abc.version > cfg.ANDROID_BOOT_CTRL_VERSION →
      (android_ab_select cfg crc32 ops dev part).1 = -1 ∧
      (android_ab_select cfg crc32 ops dev part).2 = dev ∧
      (android_ab_select_loaded cfg crc32 buf).stored = false) ∧
    (buf.abc.version ≤ cfg.ANDROID_BOOT_CTRL_VERSION →
      android_ab_select_loaded cfg crc32 buf =
        android_ab_select_tail crc32 buf (clamped buf.abc)
          (decide (buf.abc.nb_slot > buf.abc.slot_info.length)) ∧
      ((∃ j, bootable buf.abc j) → 0 ≤ (android_ab_select cfg crc32 ops dev part).1)) := by
  constructor
  · intro hver
    rw [select_of_load cfg crc32 ops dev part buf hload,
      loaded_of_bad_version cfg crc32 buf hcrc hmagic hver]
    exact ⟨rfl, rfl, rfl⟩
  · intro hver
    have hv : valid_block cfg crc32 buf.abc := ⟨hcrc, hmagic, hver⟩
    refine ⟨?_, ?_⟩
    · rw [loaded_of_valid cfg crc32 buf hv, tail_eq_select_from]
    · rintro ⟨j, hj⟩
      rw [select_ret_of_load cfg crc32 ops dev part buf hload]
      rcases loaded_ret_cases cfg crc32 buf hv with ⟨_, hnone⟩ | ⟨k, hr, _, _, _⟩
      · exact absurd hj (hnone j)
      · rw [hr]; omega

/-- C12. For a loaded block that passes the three checks: when `nb_slot` is
above the size of the slot array, the store is called on a block whose
`nb_slot` is that size, whether a slot is bootable or not; when `nb_slot` is
at most that size it is left as loaded. -/
theorem select_clamps_nb_slot {Dev : Type} (cfg : ab_config)
    (crc32 : Nat → List Nat → Nat) (ops : blk_ops Dev) (dev : Dev) (part : disk_partition_t)
    (buf : abc_data_block)
    (hload : android_boot_control_create_from_disk cfg ops dev part = some buf)
    (hv : valid_block cfg crc32 buf.abc) :
    (buf.abc.nb_slot > buf.abc.slot_info.length →
      (android_ab_select_loaded cfg crc32 buf).stored = true ∧
      (android_ab_select cfg crc32 ops dev part).2 =
        (android_boot_control_store cfg ops (android_ab_select_loaded cfg crc32 buf).buf
          dev part).2 ∧
      (android_ab_select_loaded cfg crc32 buf).buf.abc.nb_slot = buf.abc.slot_info.length) ∧
    (buf.abc.nb_slot ≤ buf.abc.slot_info.length →
      (android_ab_select_loaded cfg crc32 buf).buf.abc.nb_slot = buf.abc.nb_slot) := by
  have hnb : (android_ab_select_loaded cfg crc32 buf).buf.abc.nb_slot =
      min buf.abc.nb_slot buf.abc.slot_info.length := by
    rw [loaded_of_valid cfg crc32 buf hv, (select_from_frame _ _ _ _).2.2.2.1, clamped_nb_slot]
  constructor
  · intro hgt
    have hst : (android_ab_select_loaded cfg crc32 buf).stored = true := by
      rw [loaded_of_valid cfg crc32 buf hv, select_from_stored]
      simp [hgt]
    refine ⟨hst, ?_, ?_⟩
    · rw [select_of_load cfg crc32 ops dev part buf hload, if_pos hst]
    · rw [hnb]; omega
  · intro hle
    rw [hnb]; omega

/-- C13. Every block `android_ab_select` calls the store on has `crc32_le`
equal to the checksum from seed 0 of the bytes before that field, as they are
after all updates; a select that loads this block takes neither the
re-initialisation nor the clamp and goes to the selection with `store_needed`
false. -/
theorem stored_block_has_valid_crc {Dev : Type} (cfg : ab_config)
    (crc32 : Nat → List Nat → Nat) (ops : blk_ops Dev) (dev : Dev) (part : disk_partition_t)
    (buf : abc_data_block)
    (hload : android_boot_control_create_from_disk cfg ops dev part = some buf)
    (hst : (android_ab_select_loaded cfg crc32 buf).stored = true) :
    (android_ab_select cfg crc32 ops dev part).2 =
      (android_boot_control_store cfg ops (android_ab_select_loaded cfg crc32 buf).buf
        dev part).2 ∧
    (android_ab_select_loaded cfg crc32 buf).buf.abc.crc32_le =
      crc32 0 (bytes_before_crc (android_ab_select_loaded cfg crc32 buf).buf.abc) ∧
    android_ab_select_loaded cfg crc32 (android_ab_select_loaded cfg crc32 buf).buf =
      android_ab_select_tail crc32 (android_ab_select_loaded cfg crc32 buf).buf
        (android_ab_select_loaded cfg crc32 buf).buf.abc false := by
  obtain ⟨hv, hle⟩ := stored_block_valid cfg crc32 buf hst
  refine ⟨?_, hv.1, ?_⟩
  · rw [select_of_load cfg crc32 ops dev part buf hload, if_pos hst]
  · rw [loaded_of_valid cfg crc32 _ hv, clamped_of_le _ hle, tail_eq_select_from]
    have : decide ((android_ab_select_loaded cfg crc32 buf).buf.abc.nb_slot >
        (android_ab_select_loaded cfg crc32 buf).buf.abc.slot_info.length) = false := by
      simp; omega
    rw [this]

/-- C11 at `block_newer`: version 9 against the known version 1, `nb_slot` 7
against two slots; the call returns -1 and the device is as it was. -/
theorem select_newer_version_fails_without_write_witness :
    android_boot_control_create_from_disk cfg0 region_ops block_newer part0 =
      some block_newer ∧
    block_newer.abc.crc32_le = android_boot_control_compute_crc sum32 block_newer.abc ∧
    block_newer.abc.magic = cfg0.ANDROID_BOOT_CTRL_MAGIC ∧
    block_newer.abc.version > cfg0.ANDROID_BOOT_CTRL_VERSION ∧
    (android_ab_select cfg0 sum32 region_ops block_newer part0).1 = -1 ∧
    (android_ab_select cfg0 sum32 region_ops block_newer part0).2 = block_newer ∧
    (android_ab_select_loaded cfg0 sum32 block_newer).stored = false :=
  ⟨by decide, by decide, by decide, by decide,
    (select_newer_version_fails_without_write cfg0 sum32 region_ops block_newer part0
      block_newer (by decide) (by decide) (by decide)).1 (by decide)⟩

/-- C12 at `block_none`: `nb_slot` is 5 for two slots and no slot is bootable;
-1 is returned and the block stored has `nb_slot` 2. -/
theorem select_clamps_nb_slot_witness :
    android_boot_control_create_from_disk cfg0 region_ops block_none part0 = some block_none ∧
    valid_block cfg0 sum32 block_none.abc ∧
    block_none.abc.nb_slot = 5 ∧
    (android_ab_select cfg0 sum32 region_ops block_none part0).1 = -1 ∧
    (android_ab_select_loaded cfg0 sum32 block_none).stored = true ∧
    (android_ab_select_loaded cfg0 sum32 block_none).buf.abc.nb_slot = 2 :=
  ⟨by decide, by decide, by decide, by decide,
    ((select_clamps_nb_slot cfg0 sum32 region_ops block_none part0 block_none
      (by decide) (by decide)).1 (by decide)).1,
    ((select_clamps_nb_slot cfg0 sum32 region_ops block_none part0 block_none
      (by decide) (by decide)).1 (by decide)).2.2⟩

/-- C13 at `block_ab`: the store is called, and the block stored carries the
checksum of its own bytes. -/
theorem stored_block_has_valid_crc_witness :
    android_boot_control_create_from_disk cfg0 region_ops block_ab part0 = some block_ab ∧
    (android_ab_select_loaded cfg0 sum32 block_ab).stored = true ∧
    (android_ab_select_loaded cfg0 sum32 block_ab).buf.abc.crc32_le =
      sum32 0 (bytes_before_crc (android_ab_select_loaded cfg0 sum32 block_ab).buf.abc) :=
  ⟨by decide, by decide,
    (stored_block_has_valid_crc cfg0 sum32 region_ops block_ab part0 block_ab
      (by decide) (by decide)).2.1⟩

/-! ## Slot by slot -/

/-- The slot read back after lines 234-240: the chosen slot, when it is not
marked successful, with one try less; every other slot as it was. -/
theorem slot_at_decremented (abc : android_bootloader_control) (slot : Int) (i : Nat) :
    slot_at (decremented abc slot) i =
      if slot ≥ 0 ∧ (slot_at abc slot.toNat).successful_boot = 0 ∧ i = slot.toNat ∧
          i < abc.slot_info.length then
        tries_decrement (slot_at abc i)
      else slot_at abc i := by
  unfold decremented
  by_cases hd : slot ≥ 0 ∧ (slot_at abc slot.toNat).successful_boot = 0
  · rw [if_pos hd]
    by_cases hi : i = slot.toNat ∧ i < abc.slot_info.length
    · rw [if_pos ⟨hd.1, hd.2, hi.1, hi.2⟩]
      obtain ⟨hi1, hi2⟩ := hi
      subst hi1
      unfold slot_at
      simp only []
      rw [List.getD_eq_getElem?_getD, List.getElem?_set_self hi2]
      rfl
    · rw [if_neg (fun h => hi ⟨h.2.2.1, h.2.2.2⟩)]
      unfold slot_at
      simp only [List.getD_eq_getElem?_getD, List.getElem?_set]
      by_cases he : slot.toNat = i
      · have hlen : ¬ slot.toNat < abc.slot_info.length := fun h => hi ⟨he.symm, he ▸ h⟩
        have hnone : abc.slot_info[i]? = none := List.getElem?_eq_none (by omega)
        rw [if_pos he, if_neg hlen, hnone]
      · rw [if_neg he]
  · rw [if_neg hd, if_neg (fun h => hd ⟨h.1, h.2.1⟩)]

/-- The loop over the clamped block ends on -1 or on a bootable slot of the
loaded block. -/
theorem select_loop_clamped_cases (abc : android_bootloader_control) :
    (select_loop (clamped abc) = -1 ∧ ∀ j, ¬ bootable abc j) ∨
    (∃ k : Nat, select_loop (clamped abc) = (k : Int) ∧ bootable abc k) := by
  rw [select_loop_clamped]
  rcases loop_inv_upto abc (min abc.nb_slot abc.slot_info.length) with
    ⟨hr, hnone⟩ | ⟨k, hr, hk, hek, _, _⟩
  · left
    refine ⟨hr, fun j hj => ?_⟩
    rw [bootable_iff] at hj
    exact hnone j hj.1 hj.2
  · exact Or.inr ⟨k, hr, (bootable_iff _ _).mpr ⟨hk, hek⟩⟩

/-- Every slot of the block a valid block leaves: the winner, when it is not
marked successful, with one try less; every other slot as loaded. -/
theorem loaded_slot_at_of_valid (cfg : ab_config) (crc32 : Nat → List Nat → Nat)
    (buf : abc_data_block) (hv : valid_block cfg crc32 buf.abc) (i : Nat) :
    slot_at (android_ab_select_loaded cfg crc32 buf).buf.abc i =
      if (android_ab_select_loaded cfg crc32 buf).ret = (i : Int) ∧
          (slot_at buf.abc i).successful_boot = 0 then
        tries_decrement (slot_at buf.abc i)
      else slot_at buf.abc i := by
  have hinfo : (android_ab_select_loaded cfg crc32 buf).buf.abc.slot_info =
      (decremented (clamped buf.abc) (select_loop (clamped buf.abc))).slot_info := by
    rw [loaded_of_valid cfg crc32 buf hv, select_from_slot_info]
  have hret : (android_ab_select_loaded cfg crc32 buf).ret =
      if select_loop (clamped buf.abc) < 0 then -1 else select_loop (clamped buf.abc) := by
    rw [loaded_of_valid cfg crc32 buf hv, select_from_ret]
  have hcl : ∀ j, slot_at (clamped buf.abc) j = slot_at buf.abc j :=
    fun j => slot_at_congr (clamped_slot_info buf.abc) j
  rw [slot_at_congr hinfo i, slot_at_decremented, hret]
  simp only [hcl, clamped_slot_info]
  rcases select_loop_clamped_cases buf.abc with ⟨hl, _⟩ | ⟨k, hl, hk⟩
  · rw [hl]
    have h1 : ¬ ((-1 : Int) ≥ 0 ∧ (slot_at buf.abc (-1 : Int).toNat).successful_boot = 0 ∧
        i = (-1 : Int).toNat ∧ i < buf.abc.slot_info.length) := fun h => absurd h.1 (by omega)
    have h2 : ¬ ((if (-1 : Int) < 0 then (-1 : Int) else -1) = (i : Int) ∧
        (slot_at buf.abc i).successful_boot = 0) := fun h => by
      have := h.1
      simp at this
    rw [if_neg h1, if_neg h2]
  · rw [hl, Int.toNat_ofNat, if_neg (by omega : ¬ ((k : Int) < 0))]
    by_cases hik : i = k
    · subst hik
      by_cases hs : (slot_at buf.abc i).successful_boot = 0
      · rw [if_pos ⟨by omega, hs, rfl, hk.2.1⟩, if_pos ⟨rfl, hs⟩]
      · rw [if_neg (fun h => hs h.2.1), if_neg (fun h => hs h.2)]
    · rw [if_neg (fun h => hik h.2.2.1), if_neg (fun h => hik (by have := h.1; omega))]

theorem select_from_not_stored (crc32 : Nat → List Nat → Nat) (buf : abc_data_block)
    (abc : android_bootloader_control) (store_needed : Bool)
    (h : (select_from crc32 buf abc store_needed).stored = false) :
    (select_from crc32 buf abc store_needed).buf.abc = abc := by
  unfold select_from at h ⊢
  simp only [] at h ⊢
  rw [h]
  simp only [Bool.or_eq_false_iff, decide_eq_false_iff_not] at h
  obtain ⟨⟨_, hd⟩, hs⟩ := h
  have h1 : decremented abc (select_loop abc) = abc := by
    unfold decremented; rw [if_neg hd]
  rw [h1] at hs ⊢
  have h2 : suffixed abc (select_loop abc) = abc := by
    unfold suffixed; rw [if_neg hs]
  rw [h2]
  rfl

/-- The store is called exactly when the block left differs from the block
loaded. -/
theorem stored_iff_changed (cfg : ab_config) (crc32 : Nat → List Nat → Nat)
    (buf : abc_data_block) :
    (android_ab_select_loaded cfg crc32 buf).stored = true ↔
      (android_ab_select_loaded cfg crc32 buf).buf.abc ≠ buf.abc := by
  by_cases hcrc : crc_valid crc32 buf.abc
  · rcases loaded_of_crc_valid cfg crc32 buf hcrc with ⟨_, h⟩ | ⟨hv, h⟩
    · rw [h]
      simp
    · constructor
      · intro hst heq
        have hnb : (android_ab_select_loaded cfg crc32 buf).buf.abc.nb_slot =
            min buf.abc.nb_slot buf.abc.slot_info.length := by
          rw [h, (select_from_frame _ _ _ _).2.2.2.1, clamped_nb_slot]
        rw [h, select_from_stored] at hst
        simp only [Bool.or_eq_true, decide_eq_true_eq] at hst
        rcases hst with (hgt | hdec) | hupd
        · rw [heq] at hnb
          omega
        · rcases select_loop_clamped_cases buf.abc with ⟨hl, _⟩ | ⟨k, hl, hk⟩
          · rw [hl] at hdec; omega
          · rw [hl, Int.toNat_ofNat, slot_at_congr (clamped_slot_info buf.abc) k] at hdec
            have hret : (android_ab_select_loaded cfg crc32 buf).ret = (k : Int) := by
              rw [h, select_from_ret, hl, if_neg (by omega)]
            have hslot := loaded_slot_at_of_valid cfg crc32 buf hv k
            rw [if_pos ⟨hret, hdec.2⟩, heq] at hslot
            have hpos := hk.2.2.2
            have : (slot_at buf.abc k).tries_remaining =
                (tries_decrement (slot_at buf.abc k)).tries_remaining := by rw [← hslot]
            have hdecr : (tries_decrement (slot_at buf.abc k)).tries_remaining =
                (slot_at buf.abc k).tries_remaining - 1 := rfl
            omega
        · have hsuf : (android_ab_select_loaded cfg crc32 buf).buf.abc.slot_suffix =
              suffix_of (select_loop (clamped buf.abc)) := by
            rw [h, select_from_slot_suffix _ _ _ _ hupd.1]
          rw [heq, ← (clamped_frame buf.abc).2.2.2.2.1] at hsuf
          exact hupd.2 hsuf
      · intro hne
        by_contra hst
        have hst' : (android_ab_select_loaded cfg crc32 buf).stored = false := by
          cases hb : (android_ab_select_loaded cfg crc32 buf).stored
          · rfl
          · exact absurd hb hst
        apply hne
        rw [h] at hst' ⊢
        have hle : buf.abc.nb_slot ≤ buf.abc.slot_info.length := by
          have := hst'
          rw [select_from_stored] at this
          simp only [Bool.or_eq_false_iff, decide_eq_false_iff_not] at this
          omega
        rw [select_from_not_stored _ _ _ _ hst', clamped_of_le _ hle]
  · have h := loaded_of_crc_mismatch cfg crc32 buf hcrc
    have hst : (android_ab_select_loaded cfg crc32 buf).stored = true := by
      rw [h, select_from_stored]; simp
    refine ⟨fun _ heq => ?_, fun _ => hst⟩
    have := (stored_block_valid cfg crc32 buf hst).1.1
    rw [heq] at this
    exact hcrc this

/-- C14. For a loaded block `android_ab_select` calls the store exactly when
the block it leaves differs from the block loaded, and leaves the device as it
was otherwise.  In particular there is no store, and the device is as it was,
for a valid block with `nb_slot` within the array whose winner is marked
successful and whose suffix is already the winner's, and for a valid block
with `nb_slot` within the array and no bootable slot. -/
theorem select_writes_iff_changed {Dev : Type} (cfg : ab_config)
    (crc32 : Nat → List Nat → Nat) (ops : blk_ops Dev) (dev : Dev) (part : disk_partition_t)
    (buf : abc_data_block)
    (hload : android_boot_control_create_from_disk cfg ops dev part = some buf) :
    ((android_ab_select_loaded cfg crc32 buf).stored = true ↔
      (android_ab_select_loaded cfg crc32 buf).buf.abc ≠ buf.abc) ∧
    ((android_ab_select_loaded cfg crc32 buf).stored = true →
      (android_ab_select cfg crc32 ops dev part).2 =
        (android_boot_control_store cfg ops (android_ab_select_loaded cfg crc32 buf).buf
          dev part).2) ∧
    ((android_ab_select_loaded cfg crc32 buf).stored = false →
      (android_ab_select cfg crc32 ops dev part).2 = dev) ∧
    (valid_block cfg crc32 buf.abc → buf.abc.nb_slot ≤ buf.abc.slot_info.length →
      ∀ w : Nat, (android_ab_select cfg crc32 ops dev part).1 = (w : Int) →
        (slot_at buf.abc w).successful_boot ≠ 0 →
        buf.abc.slot_suffix = [(97 + w) % 256, 0, 0, 0] →
        (android_ab_select_loaded cfg crc32 buf).stored = false ∧
        (android_ab_select cfg crc32 ops dev part).2 = dev) ∧
    (valid_block cfg crc32 buf.abc → buf.abc.nb_slot ≤ buf.abc.slot_info.length →
      (∀ j, ¬ bootable buf.abc j) →
        (android_ab_select_loaded cfg crc32 buf).stored = false ∧
        (android_ab_select cfg crc32 ops dev part).2 = dev) := by
  have hkeep : (android_ab_select_loaded cfg crc32 buf).stored = false →
      (android_ab_select cfg crc32 ops dev part).2 = dev := by
    intro hst
    rw [select_of_load cfg crc32 ops dev part buf hload, hst]
    rfl
  refine ⟨stored_iff_changed cfg crc32 buf, ?_, hkeep, ?_, ?_⟩
  · intro hst
    rw [select_of_load cfg crc32 ops dev part buf hload, if_pos hst]
  · intro hv hle w hw hs hsuf
    rw [select_ret_of_load cfg crc32 ops dev part buf hload] at hw
    obtain ⟨hloop, _⟩ := loop_of_ret cfg crc32 buf hv w hw
    have hst : (android_ab_select_loaded cfg crc32 buf).stored = false := by
      rw [loaded_of_valid cfg crc32 buf hv, select_from_stored, hloop, Int.toNat_ofNat,
        slot_at_congr (clamped_slot_info buf.abc) w, (clamped_frame buf.abc).2.2.2.2.1,
        suffix_of_nat, hsuf]
      simp only [Bool.or_eq_false_iff, decide_eq_false_iff_not]
      exact ⟨⟨by omega, fun h => hs h.2⟩, fun h => h.2 rfl⟩
    exact ⟨hst, hkeep hst⟩
  · intro hv hle hnone
    have hloop : select_loop (clamped buf.abc) = -1 := by
      rcases select_loop_clamped_cases buf.abc with ⟨hl, _⟩ | ⟨k, _, hk⟩
      · exact hl
      · exact absurd hk (hnone k)
    have hst : (android_ab_select_loaded cfg crc32 buf).stored = false := by
      rw [loaded_of_valid cfg crc32 buf hv, select_from_stored, hloop]
      simp only [Bool.or_eq_false_iff, decide_eq_false_iff_not]
      exact ⟨⟨by omega, fun h => absurd h.1 (by omega)⟩, fun h => absurd h.1 (by omega)⟩
    exact ⟨hst, hkeep hst⟩

/-- C14 at `block_settled`: slot 0 is returned, the store is not called and the
device is as it was. -/
theorem select_writes_iff_changed_witness :
    android_boot_control_create_from_disk cfg0 region_ops block_settled part0 =
      some block_settled ∧
    valid_block cfg0 sum32 block_settled.abc ∧
    (android_ab_select cfg0 sum32 region_ops block_settled part0).1 = 0 ∧
    (android_ab_select_loaded cfg0 sum32 block_settled).stored = false ∧
    (android_ab_select cfg0 sum32 region_ops block_settled part0).2 = block_settled :=
  ⟨by decide, by decide, by decide,
    (select_writes_iff_changed cfg0 sum32 region_ops block_settled part0 block_settled
      (by decide)).2.2.2.1 (by decide) (by decide) 0 (by decide) (by decide) (by decide)⟩

/-- C16 as stated fails at `block_badcrc`: slot 0 is marked corrupted and slot
1 has no tries left in the block read, the checksum does not match, and in the
block written back both slots are eligible; slot 0 is the one returned. -/
theorem excluded_slot_stays_excluded_counterexample :
    android_boot_control_create_from_disk cfg0 region_ops block_badcrc part0 =
      some block_badcrc ∧
    (slot_at block_badcrc.abc 0).verity_corrupted = 1 ∧
    (slot_at block_badcrc.abc 1).tries_remaining = 0 ∧
    (android_ab_select cfg0 sum32 region_ops block_badcrc part0).1 = 0 ∧
    (android_ab_select cfg0 sum32 region_ops block_badcrc part0).2 =
      (android_ab_select_loaded cfg0 sum32 block_badcrc).buf ∧
    ¬ ((slot_at (android_ab_select_loaded cfg0 sum32 block_badcrc).buf.abc 0).tries_remaining = 0 ∨
      (slot_at (android_ab_select_loaded cfg0 sum32 block_badcrc).buf.abc 0).verity_corrupted
        ≠ 0) ∧
    ¬ ((slot_at (android_ab_select_loaded cfg0 sum32 block_badcrc).buf.abc 1).tries_remaining = 0 ∨
      (slot_at (android_ab_select_loaded cfg0 sum32 block_badcrc).buf.abc 1).verity_corrupted
        ≠ 0) := by
  decide

/-- C16, as amended. For a block read with a valid checksum and every slot
index: a slot that has `tries_remaining` 0 or `verity_corrupted` set in the
block as read is the same record in the block `android_ab_select` leaves or
writes, so it still has `tries_remaining` 0 or `verity_corrupted` set. -/
theorem excluded_slot_stays_excluded_of_crc_valid {Dev : Type} (cfg : ab_config)
    (crc32 : Nat → List Nat → Nat) (ops : blk_ops Dev) (dev : Dev) (part : disk_partition_t)
    (buf : abc_data_block)
    (hload : android_boot_control_create_from_disk cfg ops dev part = some buf)
    (hcrc : buf.abc.crc32_le = android_boot_control_compute_crc crc32 buf.abc) (i : Nat)
    (hex : (slot_at buf.abc i).tries_remaining = 0 ∨ (slot_at buf.abc i).verity_corrupted ≠ 0) :
    slot_at (android_ab_select_loaded cfg crc32 buf).buf.abc i = slot_at buf.abc i ∧
    ((slot_at (android_ab_select_loaded cfg crc32 buf).buf.abc i).tries_remaining = 0 ∨
      (slot_at (android_ab_select_loaded cfg crc32 buf).buf.abc i).verity_corrupted ≠ 0) ∧
    (android_ab_select cfg crc32 ops dev part).1 ≠ (i : Int) := by
  have hsame : slot_at (android_ab_select_loaded cfg crc32 buf).buf.abc i = slot_at buf.abc i ∧
      (android_ab_select_loaded cfg crc32 buf).ret ≠ (i : Int) := by
    rcases loaded_of_crc_valid cfg crc32 buf hcrc with ⟨_, h⟩ | ⟨hv, _⟩
    · rw [h]
      exact ⟨rfl, by simp⟩
    · have hne : (android_ab_select_loaded cfg crc32 buf).ret ≠ (i : Int) := by
        intro hret
        have hb := (loop_of_ret cfg crc32 buf hv i hret).2
        have h1 := hb.2.2.1
        have h2 := hb.2.2.2
        omega
      refine ⟨?_, hne⟩
      rw [loaded_slot_at_of_valid cfg crc32 buf hv i, if_neg (fun h => hne h.1)]
  refine ⟨hsame.1, ?_, ?_⟩
  · rw [hsame.1]; exact hex
  · rw [select_ret_of_load cfg crc32 ops dev part buf hload]; exact hsame.2

/-- C16 as amended, at `block_corrupt`: slot 0 is marked corrupted in the block
read and is the same record in the block left. -/
theorem excluded_slot_stays_excluded_of_crc_valid_witness :
    android_boot_control_create_from_disk cfg0 region_ops block_corrupt part0 =
      some block_corrupt ∧
    block_corrupt.abc.crc32_le = android_boot_control_compute_crc sum32 block_corrupt.abc ∧
    (slot_at block_corrupt.abc 0).verity_corrupted = 1 ∧
    slot_at (android_ab_select_loaded cfg0 sum32 block_corrupt).buf.abc 0 =
      slot_at block_corrupt.abc 0 :=
  ⟨by decide, by decide, by decide,
    (excluded_slot_stays_excluded_of_crc_valid cfg0 sum32 region_ops block_corrupt part0
      block_corrupt (by decide) (by decide) 0 (by decide)).1⟩

/-- C17. For a loaded block the bytes after the structure are left as loaded.
When the checksum is valid, the block left has the magic, version, `reserved0`
and `reserved1` loaded and as many slots; every slot keeps its priority,
`successful_boot`, `verity_corrupted` and `reserved`; and every slot other than
the one returned is the record loaded.  Only `nb_slot`, the winner's
`tries_remaining`, `slot_suffix` and `crc32_le` can differ. -/
theorem select_frame {Dev : Type} (cfg : ab_config)
    (crc32 : Nat → List Nat → Nat) (ops : blk_ops Dev) (dev : Dev) (part : disk_partition_t)
    (buf : abc_data_block)
    (hload : android_boot_control_create_from_disk cfg ops dev part = some buf) :
    (android_ab_select_loaded cfg crc32 buf).buf.tail = buf.tail ∧
    (buf.abc.crc32_le = android_boot_control_compute_crc crc32 buf.abc →
      (android_ab_select_loaded cfg crc32 buf).buf.abc.magic = buf.abc.magic ∧
      (android_ab_select_loaded cfg crc32 buf).buf.abc.version = buf.abc.version ∧
      (android_ab_select_loaded cfg crc32 buf).buf.abc.reserved0 = buf.abc.reserved0 ∧
      (android_ab_select_loaded cfg crc32 buf).buf.abc.reserved1 = buf.abc.reserved1 ∧
      (android_ab_select_loaded cfg crc32 buf).buf.abc.slot_info.length =
        buf.abc.slot_info.length ∧
      (∀ i : Nat,
        (slot_at (android_ab_select_loaded cfg crc32 buf).buf.abc i).priority =
          (slot_at buf.abc i).priority ∧
        (slot_at (android_ab_select_loaded cfg crc32 buf).buf.abc i).successful_boot =
          (slot_at buf.abc i).successful_boot ∧
        (slot_at (android_ab_select_loaded cfg crc32 buf).buf.abc i).verity_corrupted =
          (slot_at buf.abc i).verity_corrupted ∧
        (slot_at (android_ab_select_loaded cfg crc32 buf).buf.abc i).reserved =
          (slot_at buf.abc i).reserved) ∧
      (∀ i : Nat, (android_ab_select cfg crc32 ops dev part).1 ≠ (i : Int) →
        slot_at (android_ab_select_loaded cfg crc32 buf).buf.abc i = slot_at buf.abc i)) := by
  constructor
  · by_cases hcrc : crc_valid crc32 buf.abc
    · rcases loaded_of_crc_valid cfg crc32 buf hcrc with ⟨_, h⟩ | ⟨_, h⟩
      · rw [h]
      · rw [h]; exact (select_from_frame _ _ _ _).1
    · rw [loaded_of_crc_mismatch cfg crc32 buf hcrc]
      exact (select_from_frame _ _ _ _).1
  · intro hcrc
    rw [select_ret_of_load cfg crc32 ops dev part buf hload]
    rcases loaded_of_crc_valid cfg crc32 buf hcrc with ⟨_, h⟩ | ⟨hv, h⟩
    · rw [h]
      exact ⟨rfl, rfl, rfl, rfl, rfl, fun _ => ⟨rfl, rfl, rfl, rfl⟩, fun _ _ => rfl⟩
    · have hf := select_from_frame crc32 buf (clamped buf.abc)
        (decide (buf.abc.nb_slot > buf.abc.slot_info.length))
      have hc := clamped_frame buf.abc
      rw [← h] at hf
      refine ⟨hf.2.1.trans hc.1, hf.2.2.1.trans hc.2.1, hf.2.2.2.2.1.trans hc.2.2.1,
        hf.2.2.2.2.2.1.trans hc.2.2.2.1, hf.2.2.2.2.2.2.trans (by rw [clamped_slot_info]),
        fun i => ?_, fun i hne => ?_⟩
      · rw [loaded_slot_at_of_valid cfg crc32 buf hv i]
        split_ifs <;> exact ⟨rfl, rfl, rfl, rfl⟩
      · rw [loaded_slot_at_of_valid cfg crc32 buf hv i, if_neg (fun hh => hne hh.1)]

/-- C17 at `block_ab`: slot 1 is returned; slot 0, the reserved bytes and the
bytes after the structure are as loaded. -/
theorem select_frame_witness :
    android_boot_control_create_from_disk cfg0 region_ops block_ab part0 = some block_ab ∧
    block_ab.abc.crc32_le = android_boot_control_compute_crc sum32 block_ab.abc ∧
    (android_ab_select cfg0 sum32 region_ops block_ab part0).1 = 1 ∧
    (android_ab_select_loaded cfg0 sum32 block_ab).buf.tail = block_ab.tail ∧
    (android_ab_select_loaded cfg0 sum32 block_ab).buf.abc.reserved1 = block_ab.abc.reserved1 ∧
    slot_at (android_ab_select_loaded cfg0 sum32 block_ab).buf.abc 0 = slot_at block_ab.abc 0 :=
  ⟨by decide, by decide, by decide,
    (select_frame cfg0 sum32 region_ops block_ab part0 block_ab (by decide)).1,
    ((select_frame cfg0 sum32 region_ops block_ab part0 block_ab (by decide)).2
      (by decide)).2.2.2.1,
    ((select_frame cfg0 sum32 region_ops block_ab part0 block_ab (by decide)).2
      (by decide)).2.2.2.2.2.2 0 (by decide)⟩

/-! ## Claims about failures and bounds -/

/-- C18. The value `android_ab_select` returns does not depend on the write
operation of the device: with any other `blk_dwrite`, one that writes fewer
blocks than asked included, the value returned is the same. -/
theorem select_ret_ignores_store {Dev : Type} (cfg : ab_config)
    (crc32 : Nat → List Nat → Nat) (ops : blk_ops Dev) (dev : Dev) (part : disk_partition_t)
    (write : Dev → Nat → Nat → abc_data_block → Nat × Dev) :
    (android_ab_select cfg crc32
      { blk_dread := ops.blk_dread, blk_dwrite := write, malloc := ops.malloc } dev part).1 =
    (android_ab_select cfg crc32 ops dev part).1 := by
  have hload : android_boot_control_create_from_disk cfg
      { blk_dread := ops.blk_dread, blk_dwrite := write, malloc := ops.malloc } dev part =
      android_boot_control_create_from_disk cfg ops dev part := rfl
  unfold android_ab_select
  rw [hload]
  cases android_boot_control_create_from_disk cfg ops dev part with
  | none => rfl
  | some buf =>
    simp only []
    split_ifs <;> rfl

/-- C18 at `block_ab` with a device that writes no block: the store reports
-1 and slot 1 is returned all the same. -/
theorem select_ret_ignores_store_witness :
    (android_boot_control_store cfg0
      { blk_dread := region_ops.blk_dread, blk_dwrite := fun d _ _ _ => (0, d),
        malloc := region_ops.malloc }
      (android_ab_select_loaded cfg0 sum32 block_ab).buf block_ab part0).1 = -1 ∧
    (android_ab_select cfg0 sum32 region_ops block_ab part0).1 = 1 ∧
    (android_ab_select cfg0 sum32
      { blk_dread := region_ops.blk_dread, blk_dwrite := fun d _ _ _ => (0, d),
        malloc := region_ops.malloc } block_ab part0).1 =
      (android_ab_select cfg0 sum32 region_ops block_ab part0).1 :=
  ⟨by decide, by decide,
    select_ret_ignores_store cfg0 sum32 region_ops block_ab part0 (fun d _ _ _ => (0, d))⟩

/-- C19. When the offset of the control block is not a multiple of the block
size, or the partition has fewer blocks than the block offset plus the blocks
of the structure, or the read returns fewer blocks than asked, the load yields
`NULL`, and `android_ab_select` returns -1 and leaves the device as it was. -/
theorem select_load_failure_fails_without_write {Dev : Type} (cfg : ab_config)
    (crc32 : Nat → List Nat → Nat) (ops : blk_ops Dev) (dev : Dev) (part : disk_partition_t)
    (hfail : cfg.abc_offset_bytes % part.blksz ≠ 0 ∨
      part.size < cfg.abc_offset_bytes / part.blksz + DIV_ROUND_UP cfg.abc_sizeof part.blksz ∨
      (ops.blk_dread dev (part.start + cfg.abc_offset_bytes / part.blksz)
        (DIV_ROUND_UP cfg.abc_sizeof part.blksz)).1 < DIV_ROUND_UP cfg.abc_sizeof part.blksz) :
    android_boot_control_create_from_disk cfg ops dev part = none ∧
    (android_ab_select cfg crc32 ops dev part).1 = -1 ∧
    (android_ab_select cfg crc32 ops dev part).2 = dev := by
  have hnone : android_boot_control_create_from_disk cfg ops dev part = none := by
    unfold android_boot_control_create_from_disk
    simp only []
    rcases hfail with h | h | h
    · rw [if_pos h]
    · split_ifs <;> rfl
    · split_ifs <;> first | rfl | omega
  refine ⟨hnone, ?_, ?_⟩ <;>
  · unfold android_ab_select
    rw [hnone]

/-- C19 at `part_unaligned`: 2048 is not a multiple of 48; the call returns -1
and the device is as it was. -/
theorem select_load_failure_fails_without_write_witness :
    cfg0.abc_offset_bytes % part_unaligned.blksz ≠ 0 ∧
    android_boot_control_create_from_disk cfg0 region_ops block_ab part_unaligned = none ∧
    (android_ab_select cfg0 sum32 region_ops block_ab part_unaligned).1 = -1 ∧
    (android_ab_select cfg0 sum32 region_ops block_ab part_unaligned).2 = block_ab :=
  ⟨by decide,
    select_load_failure_fails_without_write cfg0 sum32 region_ops block_ab part_unaligned
      (Or.inl (by decide))⟩

theorem checked_of_crc_valid (cfg : ab_config) (crc32 : Nat → List Nat → Nat)
    (abc : android_bootloader_control) (h : crc_valid crc32 abc) :
    checked cfg crc32 abc = abc := by
  unfold checked
  rw [if_neg (fun hne => hne h)]

theorem checked_of_crc_mismatch (cfg : ab_config) (crc32 : Nat → List Nat → Nat)
    (abc : android_bootloader_control) (h : ¬ crc_valid crc32 abc) :
    checked cfg crc32 abc = android_boot_control_default cfg crc32 abc := by
  unfold checked
  exact if_pos h

theorem checked_length (cfg : ab_config) (crc32 : Nat → List Nat → Nat)
    (abc : android_bootloader_control) :
    (checked cfg crc32 abc).slot_info.length = abc.slot_info.length := by
  by_cases h : crc_valid crc32 abc
  · rw [checked_of_crc_valid cfg crc32 abc h]
  · rw [checked_of_crc_mismatch cfg crc32 abc h, default_slot_info]
    simp

/-- The value of `slot` after `n` iterations is -1 or an index below `n`. -/
theorem loop_upto_bound (abc : android_bootloader_control) (n : Nat) :
    loop_upto abc n = -1 ∨ (0 ≤ loop_upto abc n ∧ loop_upto abc n < (n : Int)) := by
  rcases loop_inv_upto abc n with ⟨hr, _⟩ | ⟨k, hr, hk, _, _, _⟩
  · exact Or.inl hr
  · exact Or.inr ⟨by omega, by omega⟩

/-- When the checks of lines 178-189 pass, the call is lines 208-265 on the
clamped block. -/
theorem loaded_of_checks_pass (cfg : ab_config) (crc32 : Nat → List Nat → Nat)
    (buf : abc_data_block)
    (hmagic : (checked cfg crc32 buf.abc).magic = cfg.ANDROID_BOOT_CTRL_MAGIC)
    (hver : (checked cfg crc32 buf.abc).version ≤ cfg.ANDROID_BOOT_CTRL_VERSION) :
    ∃ store_needed : Bool, android_ab_select_loaded cfg crc32 buf =
      android_ab_select_tail crc32 buf (clamped (checked cfg crc32 buf.abc)) store_needed := by
  by_cases h : crc_valid crc32 buf.abc
  · rw [checked_of_crc_valid cfg crc32 buf.abc h] at hmagic hver ⊢
    exact ⟨_, by rw [loaded_of_valid cfg crc32 buf ⟨h, hmagic, hver⟩, tail_eq_select_from]⟩
  · rw [checked_of_crc_mismatch cfg crc32 buf.abc h]
    refine ⟨true, ?_⟩
    rw [loaded_of_crc_mismatch cfg crc32 buf h, tail_eq_select_from,
      clamped_of_le _ (by rw [default_nb_slot, default_slot_info]; simp)]

/-- A block that fails a check of lines 178-189 yields -1. -/
theorem loaded_ret_of_checks_fail (cfg : ab_config) (crc32 : Nat → List Nat → Nat)
    (buf : abc_data_block)
    (hfail : ¬ ((checked cfg crc32 buf.abc).magic = cfg.ANDROID_BOOT_CTRL_MAGIC ∧
      (checked cfg crc32 buf.abc).version ≤ cfg.ANDROID_BOOT_CTRL_VERSION)) :
    (android_ab_select_loaded cfg crc32 buf).ret = -1 := by
  by_cases h : crc_valid crc32 buf.abc
  · rw [checked_of_crc_valid cfg crc32 buf.abc h] at hfail
    exact loaded_ret_of_crc_valid_not_valid cfg crc32 buf h (fun hv => hfail ⟨hv.2.1, hv.2.2⟩)
  · rw [checked_of_crc_mismatch cfg crc32 buf.abc h] at hfail
    exact absurd ⟨rfl, le_refl _⟩ hfail

/-- C20. Whatever `nb_slot` is on disk: after the clamp `nb_slot` is at most
the size of the slot array; every loop index is below that size; after every
iteration `slot` is -1 or an index below the iterations done, so below that
size; the slot decremented is below that size; and a return value that is not
negative is below the `nb_slot` of the block left, which is at most the size
of the array.  The block the loop runs on is the clamped block after the
checksum step, whenever the call gets past the checks; otherwise -1 is
returned. -/
theorem select_indices_in_bounds {Dev : Type} (cfg : ab_config)
    (crc32 : Nat → List Nat → Nat) (ops : blk_ops Dev) (dev : Dev) (part : disk_partition_t)
    (buf : abc_data_block)
    (hload : android_boot_control_create_from_disk cfg ops dev part = some buf) :
    (clamped (checked cfg crc32 buf.abc)).nb_slot ≤
      (clamped (checked cfg crc32 buf.abc)).slot_info.length ∧
    (clamped (checked cfg crc32 buf.abc)).slot_info.length = buf.abc.slot_info.length ∧
    (∀ i, i < (clamped (checked cfg crc32 buf.abc)).nb_slot → i < buf.abc.slot_info.length) ∧
    (∀ n, n ≤ (clamped (checked cfg crc32 buf.abc)).nb_slot →
      loop_upto (clamped (checked cfg crc32 buf.abc)) n = -1 ∨
      (0 ≤ loop_upto (clamped (checked cfg crc32 buf.abc)) n ∧
        loop_upto (clamped (checked cfg crc32 buf.abc)) n < (n : Int) ∧
        (loop_upto (clamped (checked cfg crc32 buf.abc)) n).toNat <
          buf.abc.slot_info.length)) ∧
    (0 ≤ select_loop (clamped (checked cfg crc32 buf.abc)) →
      (select_loop (clamped (checked cfg crc32 buf.abc))).toNat < buf.abc.slot_info.length) ∧
    ((android_ab_select cfg crc32 ops dev part).1 = -1 ∨
      ∃ store_needed : Bool, android_ab_select_loaded cfg crc32 buf =
        android_ab_select_tail crc32 buf (clamped (checked cfg crc32 buf.abc)) store_needed) ∧
    (0 ≤ (android_ab_select cfg crc32 ops dev part).1 →
      (android_ab_select cfg crc32 ops dev part).1 <
        ((android_ab_select_loaded cfg crc32 buf).buf.abc.nb_slot : Int) ∧
      (android_ab_select_loaded cfg crc32 buf).buf.abc.nb_slot ≤ buf.abc.slot_info.length ∧
      (android_ab_select_loaded cfg crc32 buf).buf.abc.slot_info.length =
        buf.abc.slot_info.length) := by
  have hlen : (clamped (checked cfg crc32 buf.abc)).slot_info.length =
      buf.abc.slot_info.length := by
    rw [clamped_slot_info, checked_length]
  have hle := clamped_le (checked cfg crc32 buf.abc)
  have hloop : ∀ n, n ≤ (clamped (checked cfg crc32 buf.abc)).nb_slot →
      loop_upto (clamped (checked cfg crc32 buf.abc)) n = -1 ∨
      (0 ≤ loop_upto (clamped (checked cfg crc32 buf.abc)) n ∧
        loop_upto (clamped (checked cfg crc32 buf.abc)) n < (n : Int) ∧
        (loop_upto (clamped (checked cfg crc32 buf.abc)) n).toNat <
          buf.abc.slot_info.length) := by
    intro n hn
    rcases loop_upto_bound (clamped (checked cfg crc32 buf.abc)) n with h | ⟨h0, h1⟩
    · exact Or.inl h
    · exact Or.inr ⟨h0, h1, by omega⟩
  have hsel : 0 ≤ select_loop (clamped (checked cfg crc32 buf.abc)) →
      (select_loop (clamped (checked cfg crc32 buf.abc))).toNat < buf.abc.slot_info.length := by
    intro h0
    rw [select_loop_eq] at h0 ⊢
    rcases hloop _ (le_refl _) with h | ⟨_, _, h⟩
    · omega
    · exact h
  rw [select_ret_of_load cfg crc32 ops dev part buf hload]
  refine ⟨hle, hlen, fun i hi => by omega, hloop, hsel, ?_, ?_⟩
  · by_cases hpass : (checked cfg crc32 buf.abc).magic = cfg.ANDROID_BOOT_CTRL_MAGIC ∧
        (checked cfg crc32 buf.abc).version ≤ cfg.ANDROID_BOOT_CTRL_VERSION
    · exact Or.inr (loaded_of_checks_pass cfg crc32 buf hpass.1 hpass.2)
    · exact Or.inl (loaded_ret_of_checks_fail cfg crc32 buf hpass)
  · intro h0
    by_cases hpass : (checked cfg crc32 buf.abc).magic = cfg.ANDROID_BOOT_CTRL_MAGIC ∧
        (checked cfg crc32 buf.abc).version ≤ cfg.ANDROID_BOOT_CTRL_VERSION
    · obtain ⟨sn, hsn⟩ := loaded_of_checks_pass cfg crc32 buf hpass.1 hpass.2
      rw [tail_eq_select_from] at hsn
      have hf := select_from_frame crc32 buf (clamped (checked cfg crc32 buf.abc)) sn
      rw [hsn] at h0 ⊢
      rw [select_from_ret] at h0 ⊢
      rw [hf.2.2.2.1, hf.2.2.2.2.2.2, hlen]
      refine ⟨?_, by omega, rfl⟩
      rw [select_loop_eq] at h0 ⊢
      rcases loop_upto_bound (clamped (checked cfg crc32 buf.abc))
        (clamped (checked cfg crc32 buf.abc)).nb_slot with h | ⟨h1, h2⟩
      · rw [h] at h0
        simp at h0
      · rw [if_neg (by omega)]
        exact h2
    · rw [loaded_ret_of_checks_fail cfg crc32 buf hpass] at h0
      omega

/-- C20 at `block_far`: `nb_slot` is 4000000000 on disk for two slots; the
block left has `nb_slot` 2 and the slot returned is 1. -/
theorem select_indices_in_bounds_witness :
    android_boot_control_create_from_disk cfg0 region_ops block_far part0 = some block_far ∧
    block_far.abc.nb_slot = 4000000000 ∧ block_far.abc.slot_info.length = 2 ∧
    (android_ab_select cfg0 sum32 region_ops block_far part0).1 = 1 ∧
    (android_ab_select cfg0 sum32 region_ops block_far part0).1 <
      ((android_ab_select_loaded cfg0 sum32 block_far).buf.abc.nb_slot : Int) ∧
    (android_ab_select_loaded cfg0 sum32 block_far).buf.abc.nb_slot ≤
      block_far.abc.slot_info.length :=
  ⟨by decide, by decide, by decide, by decide,
    ((select_indices_in_bounds cfg0 sum32 region_ops block_far part0 block_far
      (by decide)).2.2.2.2.2.2 (by decide)).1,
    ((select_indices_in_bounds cfg0 sum32 region_ops block_far part0 block_far
      (by decide)).2.2.2.2.2.2 (by decide)).2.1⟩

/-! ## Repeated calls -/

theorem loaded_tail (cfg : ab_config) (crc32 : Nat → List Nat → Nat) (buf : abc_data_block) :
    (android_ab_select_loaded cfg crc32 buf).buf.tail = buf.tail := by
  by_cases hcrc : crc_valid crc32 buf.abc
  · rcases loaded_of_crc_valid cfg crc32 buf hcrc with ⟨_, h⟩ | ⟨_, h⟩
    · rw [h]
    · rw [h]; exact (select_from_frame _ _ _ _).1
  · rw [loaded_of_crc_mismatch cfg crc32 buf hcrc]
    exact (select_from_frame _ _ _ _).1

theorem loaded_buf_of_not_stored (cfg : ab_config) (crc32 : Nat → List Nat → Nat)
    (buf : abc_data_block) (h : (android_ab_select_loaded cfg crc32 buf).stored = false) :
    (android_ab_select_loaded cfg crc32 buf).buf = buf := by
  have habc : (android_ab_select_loaded cfg crc32 buf).buf.abc = buf.abc := by
    by_contra hne
    have := (stored_iff_changed cfg crc32 buf).mpr hne
    rw [h] at this
    exact absurd this (by decide)
  have htail := loaded_tail cfg crc32 buf
  cases hb : (android_ab_select_loaded cfg crc32 buf).buf with
  | mk a t =>
    rw [hb] at habc htail
    cases buf with
    | mk a0 t0 =>
      simp only [] at habc htail
      rw [habc, htail]

/-- On a device where a load after a store returns the block stored, a load
after a call of `android_ab_select` returns the block the call left. -/
theorem load_after_select {Dev : Type} (cfg : ab_config) (crc32 : Nat → List Nat → Nat)
    (ops : blk_ops Dev) (dev : Dev) (part : disk_partition_t) (buf : abc_data_block)
    (hdev : store_then_load cfg ops part)
    (hload : android_boot_control_create_from_disk cfg ops dev part = some buf) :
    android_boot_control_create_from_disk cfg ops (android_ab_select cfg crc32 ops dev part).2
      part = some (android_ab_select_loaded cfg crc32 buf).buf := by
  rw [select_of_load cfg crc32 ops dev part buf hload]
  cases hst : (android_ab_select_loaded cfg crc32 buf).stored
  · rw [if_neg (by simp), loaded_buf_of_not_stored cfg crc32 buf hst]
    exact hload
  · rw [if_pos rfl]
    exact (hdev dev _).2

theorem loaded_crc_valid_preserved (cfg : ab_config) (crc32 : Nat → List Nat → Nat)
    (buf : abc_data_block) (hcrc : crc_valid crc32 buf.abc) :
    crc_valid crc32 (android_ab_select_loaded cfg crc32 buf).buf.abc := by
  cases hst : (android_ab_select_loaded cfg crc32 buf).stored
  · rw [loaded_buf_of_not_stored cfg crc32 buf hst]; exact hcrc
  · exact (stored_block_valid cfg crc32 buf hst).1.1

theorem loaded_nb_slot_of_valid (cfg : ab_config) (crc32 : Nat → List Nat → Nat)
    (buf : abc_data_block) (hv : valid_block cfg crc32 buf.abc) :
    (android_ab_select_loaded cfg crc32 buf).buf.abc.nb_slot =
      min buf.abc.nb_slot buf.abc.slot_info.length ∧
    (android_ab_select_loaded cfg crc32 buf).buf.abc.slot_info.length =
      buf.abc.slot_info.length := by
  rw [loaded_of_valid cfg crc32 buf hv]
  have hf := select_from_frame crc32 buf (clamped buf.abc)
    (decide (buf.abc.nb_slot > buf.abc.slot_info.length))
  exact ⟨by rw [hf.2.2.2.1, clamped_nb_slot], by rw [hf.2.2.2.2.2.2, clamped_slot_info]⟩

/-- One call on a block where slot `w` dominates with `t + 1` tries: `w` is
returned, and the block left is in the same state with `t` tries. -/
theorem counting_step (cfg : ab_config) (crc32 : Nat → List Nat → Nat) (w t : Nat)
    (buf : abc_data_block) (h : counting cfg crc32 w (t + 1) buf) :
    (android_ab_select_loaded cfg crc32 buf).ret = (w : Int) ∧
    counting cfg crc32 w t (android_ab_select_loaded cfg crc32 buf).buf := by
  obtain ⟨hv, hwnb, hwlen, hs, hvc, ht, hdom⟩ := h
  have hbw : bootable buf.abc w := ⟨hwnb, hwlen, hvc, by omega⟩
  have hret : (android_ab_select_loaded cfg crc32 buf).ret = (w : Int) := by
    rcases loaded_ret_cases cfg crc32 buf hv with ⟨_, hnone⟩ | ⟨k, hr, hk, hbest, _⟩
    · exact absurd hbw (hnone w)
    · by_cases hkw : k = w
      · rw [hr, hkw]
      · exfalso
        have hp := hdom k hk hkw
        apply hbest w hbw
        unfold ranks_higher
        omega
  have hslot := loaded_slot_at_of_valid cfg crc32 buf hv
  have hsw : slot_at (android_ab_select_loaded cfg crc32 buf).buf.abc w =
      tries_decrement (slot_at buf.abc w) := by
    rw [hslot w, if_pos ⟨hret, hs⟩]
  have hother : ∀ j, j ≠ w →
      slot_at (android_ab_select_loaded cfg crc32 buf).buf.abc j = slot_at buf.abc j := by
    intro j hj
    rw [hslot j, if_neg (fun hh => hj (by have := hh.1; rw [hret] at this; omega))]
  have hst : (android_ab_select_loaded cfg crc32 buf).stored = true := by
    rw [stored_iff_changed]
    intro heq
    have : (slot_at buf.abc w).tries_remaining =
        (tries_decrement (slot_at buf.abc w)).tries_remaining := by rw [← hsw, heq]
    have hd : (tries_decrement (slot_at buf.abc w)).tries_remaining =
        (slot_at buf.abc w).tries_remaining - 1 := rfl
    omega
  obtain ⟨hnb, hlen⟩ := loaded_nb_slot_of_valid cfg crc32 buf hv
  refine ⟨hret, (stored_block_valid cfg crc32 buf hst).1, by omega, by omega, ?_, ?_, ?_, ?_⟩
  · rw [hsw]; exact hs
  · rw [hsw]; exact hvc
  · rw [hsw]
    show (slot_at buf.abc w).tries_remaining - 1 = t
    omega
  · intro j hj hjw
    have hjb : bootable buf.abc j := by
      obtain ⟨h1, h2, h3⟩ := hj
      unfold eligible at h3
      rw [hother j hjw] at h3
      exact ⟨by omega, by omega, h3⟩
    rw [hother j hjw, hsw]
    exact hdom j hjb hjw

/-- A slot with no tries left in a block with a valid checksum is not
returned, and has no tries left in the block the call leaves. -/
theorem exhausted_step (cfg : ab_config) (crc32 : Nat → List Nat → Nat) (w : Nat)
    (buf : abc_data_block) (hcrc : crc_valid crc32 buf.abc)
    (ht : (slot_at buf.abc w).tries_remaining = 0) :
    (android_ab_select_loaded cfg crc32 buf).ret ≠ (w : Int) ∧
    crc_valid crc32 (android_ab_select_loaded cfg crc32 buf).buf.abc ∧
    (slot_at (android_ab_select_loaded cfg crc32 buf).buf.abc w).tries_remaining = 0 := by
  have hne : (android_ab_select_loaded cfg crc32 buf).ret ≠ (w : Int) := by
    rcases loaded_of_crc_valid cfg crc32 buf hcrc with ⟨_, h⟩ | ⟨hv, _⟩
    · rw [h]; simp
    · intro hret
      have := (loop_of_ret cfg crc32 buf hv w hret).2.2.2.2
      omega
  refine ⟨hne, loaded_crc_valid_preserved cfg crc32 buf hcrc, ?_⟩
  rcases loaded_of_crc_valid cfg crc32 buf hcrc with ⟨_, h⟩ | ⟨hv, _⟩
  · rw [h]; exact ht
  · rw [loaded_slot_at_of_valid cfg crc32 buf hv w, if_neg (fun hh => hne hh.1)]
    exact ht

theorem select_iter_succ {Dev : Type} (cfg : ab_config) (crc32 : Nat → List Nat → Nat)
    (ops : blk_ops Dev) (part : disk_partition_t) (n : Nat) (dev : Dev) :
    select_iter cfg crc32 ops part (n + 1) dev =
      (android_ab_select cfg crc32 ops (select_iter cfg crc32 ops part n dev) part).2 := rfl

/-- While the dominating slot has tries left, each call takes one. -/
theorem counting_iter {Dev : Type} (cfg : ab_config) (crc32 : Nat → List Nat → Nat)
    (ops : blk_ops Dev) (dev : Dev) (part : disk_partition_t) (buf : abc_data_block)
    (hdev : store_then_load cfg ops part)
    (hload : android_boot_control_create_from_disk cfg ops dev part = some buf)
    (w T : Nat) (hc : counting cfg crc32 w T buf) (N : Nat) (hN : N ≤ T) :
    ∃ b, android_boot_control_create_from_disk cfg ops
        (select_iter cfg crc32 ops part N dev) part = some b ∧
      counting cfg crc32 w (T - N) b := by
  induction N with
  | zero => exact ⟨buf, hload, hc⟩
  | succ n ih =>
    obtain ⟨b, hb, hcb⟩ := ih (by omega)
    have hT : T - n = (T - (n + 1)) + 1 := by omega
    rw [hT] at hcb
    refine ⟨(android_ab_select_loaded cfg crc32 b).buf, ?_, (counting_step cfg crc32 w _ b hcb).2⟩
    rw [select_iter_succ]
    exact load_after_select cfg crc32 ops _ part b hdev hb

/-- Once a slot has no tries left in a block with a valid checksum, it has
none after any number of further calls. -/
theorem exhausted_iter {Dev : Type} (cfg : ab_config) (crc32 : Nat → List Nat → Nat)
    (ops : blk_ops Dev) (dev : Dev) (part : disk_partition_t)
    (hdev : store_then_load cfg ops part) (w M : Nat)
    (hM : ∃ b, android_boot_control_create_from_disk cfg ops
        (select_iter cfg crc32 ops part M dev) part = some b ∧
      crc_valid crc32 b.abc ∧ (slot_at b.abc w).tries_remaining = 0)
    (k : Nat) (hk : M ≤ k) :
    ∃ b, android_boot_control_create_from_disk cfg ops
        (select_iter cfg crc32 ops part k dev) part = some b ∧
      crc_valid crc32 b.abc ∧ (slot_at b.abc w).tries_remaining = 0 := by
  induction k with
  | zero =>
    have : M = 0 := by omega
    rw [this] at hM
    exact hM
  | succ n ih =>
    by_cases hn : M ≤ n
    · obtain ⟨b, hb, hcrc, ht⟩ := ih hn
      have hstep := exhausted_step cfg crc32 w b hcrc ht
      refine ⟨(android_ab_select_loaded cfg crc32 b).buf, ?_, hstep.2.1, hstep.2.2⟩
      rw [select_iter_succ]
      exact load_after_select cfg crc32 ops _ part b hdev hb
    · have : M = n + 1 := by omega
      rw [this] at hM
      exact hM

/-- C15, as amended. Start from a stored block with a valid checksum whose
winner `w` has `successful_boot` false, seven tries and a higher priority than
every other bootable slot, on a device where every store succeeds and a load
returns the block last stored.  Then after `N` calls, `N` up to 7, the stored
`tries_remaining` of `w` is `7 - N`; each of the first seven calls returns
`w`; and no later call returns `w`. -/
theorem repeated_select_counts_down {Dev : Type} (cfg : ab_config)
    (crc32 : Nat → List Nat → Nat) (ops : blk_ops Dev) (dev : Dev) (part : disk_partition_t)
    (buf : abc_data_block)
    (hdev : store_then_load cfg ops part)
    (hload : android_boot_control_create_from_disk cfg ops dev part = some buf)
    (hcrc : buf.abc.crc32_le = android_boot_control_compute_crc crc32 buf.abc) (w : Nat)
    (hw : (android_ab_select cfg crc32 ops dev part).1 = (w : Int))
    (hs : (slot_at buf.abc w).successful_boot = 0)
    (ht : (slot_at buf.abc w).tries_remaining = 7)
    (hdom : ∀ j, bootable buf.abc j → j ≠ w →
      (slot_at buf.abc j).priority < (slot_at buf.abc w).priority) :
    (∀ N, N ≤ 7 → ∃ b, android_boot_control_create_from_disk cfg ops
        (select_iter cfg crc32 ops part N dev) part = some b ∧
      (slot_at b.abc w).tries_remaining = 7 - N) ∧
    (∀ k, k < 7 →
      (android_ab_select cfg crc32 ops (select_iter cfg crc32 ops part k dev) part).1 =
        (w : Int)) ∧
    (∀ k, 7 ≤ k →
      (android_ab_select cfg crc32 ops (select_iter cfg crc32 ops part k dev) part).1 ≠
        (w : Int)) := by
  rw [select_ret_of_load cfg crc32 ops dev part buf hload] at hw
  have hv : valid_block cfg crc32 buf.abc := by
    by_contra hnv
    rw [loaded_ret_of_crc_valid_not_valid cfg crc32 buf hcrc hnv] at hw
    omega
  have hb := (loop_of_ret cfg crc32 buf hv w hw).2
  have hc : counting cfg crc32 w 7 buf := ⟨hv, hb.1, hb.2.1, hs, hb.2.2.1, ht, hdom⟩
  have hiter := counting_iter cfg crc32 ops dev part buf hdev hload w 7 hc
  refine ⟨fun N hN => ?_, fun k hk => ?_, fun k hk => ?_⟩
  · obtain ⟨b, hbl, hcb⟩ := hiter N hN
    exact ⟨b, hbl, hcb.2.2.2.2.2.1⟩
  · obtain ⟨b, hbl, hcb⟩ := hiter k (by omega)
    have h7 : 7 - k = (7 - k - 1) + 1 := by omega
    rw [h7] at hcb
    rw [select_ret_of_load cfg crc32 ops _ part b hbl]
    exact (counting_step cfg crc32 w _ b hcb).1
  · obtain ⟨b7, hb7, hc7⟩ := hiter 7 (le_refl _)
    obtain ⟨b, hbl, hbcrc, hbt⟩ := exhausted_iter cfg crc32 ops dev part hdev w 7
      ⟨b7, hb7, hc7.1.1, hc7.2.2.2.2.2.1⟩ k hk
    rw [select_ret_of_load cfg crc32 ops _ part b hbl]
    exact (exhausted_step cfg crc32 w b hbcrc hbt).1

/-- C15 as stated fails at `block_rr`: the checksum is valid, slot 0 wins with
`successful_boot` false and seven tries, every store succeeds and is read
back, and after two calls the stored `tries_remaining` of slot 0 is 6, not 5:
the second call returned slot 1. -/
theorem repeated_select_counts_down_counterexample :
    store_then_load cfg0 region_ops part0 ∧
    android_boot_control_create_from_disk cfg0 region_ops block_rr part0 = some block_rr ∧
    block_rr.abc.crc32_le = android_boot_control_compute_crc sum32 block_rr.abc ∧
    (android_ab_select cfg0 sum32 region_ops block_rr part0).1 = 0 ∧
    (slot_at block_rr.abc 0).successful_boot = 0 ∧
    (slot_at block_rr.abc 0).tries_remaining = 7 ∧
    (android_ab_select cfg0 sum32 region_ops
      (select_iter cfg0 sum32 region_ops part0 1 block_rr) part0).1 = 1 ∧
    android_boot_control_create_from_disk cfg0 region_ops
      (select_iter cfg0 sum32 region_ops part0 2 block_rr) part0 =
      some (select_iter cfg0 sum32 region_ops part0 2 block_rr) ∧
    (slot_at (select_iter cfg0 sum32 region_ops part0 2 block_rr).abc 0).tries_remaining = 6 ∧
    (slot_at (select_iter cfg0 sum32 region_ops part0 2 block_rr).abc 0).tries_remaining ≠
      7 - 2 :=
  ⟨fun _ _ => ⟨rfl, rfl⟩, by decide, by decide, by decide, by decide, by decide, by decide,
    by decide, by decide, by decide⟩

/-- C15 as amended, at `block_count`: slot 0 has priority 15 against 14. -/
theorem repeated_select_counts_down_witness :
    store_then_load cfg0 region_ops part0 ∧
    android_boot_control_create_from_disk cfg0 region_ops block_count part0 =
      some block_count ∧
    (android_ab_select cfg0 sum32 region_ops block_count part0).1 = 0 ∧
    ((∀ N, N ≤ 7 → ∃ b, android_boot_control_create_from_disk cfg0 region_ops
        (select_iter cfg0 sum32 region_ops part0 N block_count) part0 = some b ∧
      (slot_at b.abc 0).tries_remaining = 7 - N) ∧
    (∀ k, k < 7 →
      (android_ab_select cfg0 sum32 region_ops
        (select_iter cfg0 sum32 region_ops part0 k block_count) part0).1 = ((0 : Nat) : Int)) ∧
    (∀ k, 7 ≤ k →
      (android_ab_select cfg0 sum32 region_ops
        (select_iter cfg0 sum32 region_ops part0 k block_count) part0).1 ≠ ((0 : Nat) : Int))) :=
  ⟨fun _ _ => ⟨rfl, rfl⟩, by decide, by decide,
    repeated_select_counts_down cfg0 sum32 region_ops block_count part0 block_count
      (fun _ _ => ⟨rfl, rfl⟩) (by decide) (by decide) 0 (by decide) (by decide) (by decide)
      (fun j hj hne => by
        have hlt : j < 2 := hj.1
        have h1 : j = 1 := by omega
        subst h1
        decide)⟩

/-! ## Claims about the store adapter and the comparison -/

/-- C21. On a device where a write of `n` blocks that succeeds, followed by a
read of `n` blocks at the same address, returns what was written, and for a
geometry the load accepts: a store of `x` that succeeds followed by a load
yields `x`.  The store writes, and the load reads, `DIV_ROUND_UP sizeof blksz`
blocks at block `start + offset / blksz`. -/
theorem store_then_load_roundtrip {Dev : Type} (cfg : ab_config) (ops : blk_ops Dev)
    (dev : Dev) (part : disk_partition_t) (x : abc_data_block)
    (hrw : ∀ (d : Dev) (a n : Nat) (b : abc_data_block),
      (ops.blk_dwrite d a n b).1 = n → ops.blk_dread (ops.blk_dwrite d a n b).2 a n = (n, b))
    (halign : cfg.abc_offset_bytes % part.blksz = 0)
    (hcap : cfg.abc_offset_bytes / part.blksz + DIV_ROUND_UP cfg.abc_sizeof part.blksz ≤
      part.size)
    (hmalloc : ops.malloc (DIV_ROUND_UP cfg.abc_sizeof part.blksz * part.blksz) = true)
    (hstore : (android_boot_control_store cfg ops x dev part).1 = 0) :
    android_boot_control_create_from_disk cfg ops
      (android_boot_control_store cfg ops x dev part).2 part = some x ∧
    (android_boot_control_store cfg ops x dev part).2 =
      (ops.blk_dwrite dev (part.start + cfg.abc_offset_bytes / part.blksz)
        (DIV_ROUND_UP cfg.abc_sizeof part.blksz) x).2 ∧
    (∀ d : Dev, android_boot_control_create_from_disk cfg ops d part = none ∨
      android_boot_control_create_from_disk cfg ops d part =
        some (ops.blk_dread d (part.start + cfg.abc_offset_bytes / part.blksz)
          (DIV_ROUND_UP cfg.abc_sizeof part.blksz)).2) := by
  have hw : (ops.blk_dwrite dev (part.start + cfg.abc_offset_bytes / part.blksz)
      (DIV_ROUND_UP cfg.abc_sizeof part.blksz) x).1 = DIV_ROUND_UP cfg.abc_sizeof part.blksz := by
    by_contra hne
    unfold android_boot_control_store at hstore
    simp only [] at hstore
    rw [if_pos hne] at hstore
    simp at hstore
  have hdev : (android_boot_control_store cfg ops x dev part).2 =
      (ops.blk_dwrite dev (part.start + cfg.abc_offset_bytes / part.blksz)
        (DIV_ROUND_UP cfg.abc_sizeof part.blksz) x).2 := by
    unfold android_boot_control_store
    simp only []
    split_ifs <;> rfl
  have hload : ∀ d : Dev, android_boot_control_create_from_disk cfg ops d part =
      if (ops.blk_dread d (part.start + cfg.abc_offset_bytes / part.blksz)
          (DIV_ROUND_UP cfg.abc_sizeof part.blksz)).1 ≠ DIV_ROUND_UP cfg.abc_sizeof part.blksz
      then none
      else some (ops.blk_dread d (part.start + cfg.abc_offset_bytes / part.blksz)
          (DIV_ROUND_UP cfg.abc_sizeof part.blksz)).2 := by
    intro d
    unfold android_boot_control_create_from_disk
    simp only []
    rw [if_neg (not_not.mpr halign), if_neg (by omega), if_neg (by simp [hmalloc])]
  refine ⟨?_, hdev, fun d => ?_⟩
  · rw [hload, hdev, hrw dev _ _ x hw]
    simp
  · rw [hload]
    split_ifs
    · exact Or.inl rfl
    · exact Or.inr rfl

/-- C21 at `region_ops`: `block_ab` stored over `block_none` and loaded back. -/
theorem store_then_load_roundtrip_witness :
    (android_boot_control_store cfg0 region_ops block_ab block_none part0).1 = 0 ∧
    android_boot_control_create_from_disk cfg0 region_ops
      (android_boot_control_store cfg0 region_ops block_ab block_none part0).2 part0 =
      some block_ab :=
  ⟨by decide,
    (store_then_load_roundtrip cfg0 region_ops block_none part0 block_ab
      (fun _ _ _ _ _ => rfl) (by decide) (by decide) (by decide) (by decide)).1⟩

/-- The macro rounds up: `DIV_ROUND_UP n d` is at most `m` exactly when `n` is
at most `m * d`. -/
theorem div_round_up_le_iff (n d m : Nat) (hd : 0 < d) :
    DIV_ROUND_UP n d ≤ m ↔ n ≤ m * d := by
  unfold DIV_ROUND_UP
  rw [Nat.div_le_iff_le_mul_add_pred hd, Nat.mul_comm d m]
  omega

/-- C22. For a positive block size that divides the offset of the control
block, the capacity test of line 78 passes exactly when `offset + sizeof` is at
most the size of the partition in bytes; the load fails when it is not, and
succeeds when it is, the allocation succeeds and the read is complete. -/
theorem capacity_check_iff_bytes_fit {Dev : Type} (cfg : ab_config) (ops : blk_ops Dev)
    (dev : Dev) (part : disk_partition_t) (hblk : 0 < part.blksz)
    (hdiv : part.blksz ∣ cfg.abc_offset_bytes) :
    (¬ (cfg.abc_offset_bytes / part.blksz + DIV_ROUND_UP cfg.abc_sizeof part.blksz >
        part.size) ↔
      cfg.abc_offset_bytes + cfg.abc_sizeof ≤ part.size * part.blksz) ∧
    (¬ (cfg.abc_offset_bytes + cfg.abc_sizeof ≤ part.size * part.blksz) →
      android_boot_control_create_from_disk cfg ops dev part = none) ∧
    (cfg.abc_offset_bytes + cfg.abc_sizeof ≤ part.size * part.blksz →
      ops.malloc (DIV_ROUND_UP cfg.abc_sizeof part.blksz * part.blksz) = true →
      (ops.blk_dread dev (part.start + cfg.abc_offset_bytes / part.blksz)
        (DIV_ROUND_UP cfg.abc_sizeof part.blksz)).1 = DIV_ROUND_UP cfg.abc_sizeof part.blksz →
      android_boot_control_create_from_disk cfg ops dev part =
        some (ops.blk_dread dev (part.start + cfg.abc_offset_bytes / part.blksz)
          (DIV_ROUND_UP cfg.abc_sizeof part.blksz)).2) := by
  obtain ⟨q, hq⟩ := hdiv
  have hquot : cfg.abc_offset_bytes / part.blksz = q := by
    rw [hq, Nat.mul_div_cancel_left q hblk]
  have hmod : cfg.abc_offset_bytes % part.blksz = 0 := by
    rw [hq, Nat.mul_mod_right]
  have key : (¬ (cfg.abc_offset_bytes / part.blksz + DIV_ROUND_UP cfg.abc_sizeof part.blksz >
        part.size) ↔
      cfg.abc_offset_bytes + cfg.abc_sizeof ≤ part.size * part.blksz) := by
    rw [hquot]
    by_cases hqP : q ≤ part.size
    · obtain ⟨m, hm⟩ := Nat.exists_eq_add_of_le hqP
      have h1 := div_round_up_le_iff cfg.abc_sizeof part.blksz m hblk
      have h2 : part.size * part.blksz = cfg.abc_offset_bytes + m * part.blksz := by
        rw [hm, Nat.add_mul, hq, Nat.mul_comm q part.blksz]
      rw [h2]
      constructor
      · intro h
        have : DIV_ROUND_UP cfg.abc_sizeof part.blksz ≤ m := by omega
        have := h1.mp this
        omega
      · intro h
        have : cfg.abc_sizeof ≤ m * part.blksz := by omega
        have := h1.mpr this
        omega
    · have hlt : part.size * part.blksz < cfg.abc_offset_bytes := by
        rw [hq, Nat.mul_comm part.blksz q]
        exact Nat.mul_lt_mul_of_pos_right (by omega) hblk
      constructor
      · intro h; omega
      · intro h; omega
  refine ⟨key, fun hbig => ?_, fun hfit hmalloc hread => ?_⟩
  · have hfail := fun h => hbig (key.mp h)
    unfold android_boot_control_create_from_disk
    simp only []
    rw [if_neg (not_not.mpr hmod), if_pos (not_not.mp hfail)]
  · have hpass := key.mpr hfit
    unfold android_boot_control_create_from_disk
    simp only []
    rw [if_neg (not_not.mpr hmod), if_neg hpass, if_neg (by simp [hmalloc]),
      if_neg (not_not.mpr hread)]

/-- C22 at `cfg0` and a partition of 32 blocks of 64 bytes: 2048 + 48 bytes do
not fit into 2048, and the load fails. -/
theorem capacity_check_iff_bytes_fit_witness :
    ¬ (cfg0.abc_offset_bytes + cfg0.abc_sizeof ≤ part_small.size * part_small.blksz) ∧
    android_boot_control_create_from_disk cfg0 region_ops block_ab part_small = none :=
  ⟨by decide,
    (capacity_check_iff_bytes_fit cfg0 region_ops block_ab part_small (by decide)
      (by decide)).2.1 (by decide)⟩

/-- C24. `android_ab_compare_slots a b` is negative exactly when `a` ranks
higher than `b` in the order priority, `successful_boot`, `tries_remaining`,
positive exactly when `b` ranks higher than `a`, and zero exactly when the
three fields are equal; swapping the arguments negates the result; and
"negative" is irreflexive and transitive. -/
theorem compare_is_lexicographic (a b : android_slot_metadata) :
    (android_ab_compare_slots a b < 0 ↔ ranks_higher a b) ∧
    (android_ab_compare_slots a b > 0 ↔ ranks_higher b a) ∧
    (android_ab_compare_slots a b = 0 ↔
      a.priority = b.priority ∧ a.successful_boot = b.successful_boot ∧
        a.tries_remaining = b.tries_remaining) ∧
    android_ab_compare_slots b a = - android_ab_compare_slots a b ∧
    ¬ (android_ab_compare_slots a a < 0) ∧
    (∀ c : android_slot_metadata, android_ab_compare_slots a b < 0 →
      android_ab_compare_slots b c < 0 → android_ab_compare_slots a c < 0) := by
  refine ⟨compare_neg_iff a b, ?_, ?_, ?_, ?_, ?_⟩
  · unfold android_ab_compare_slots ranks_higher
    split_ifs <;> omega
  · unfold android_ab_compare_slots
    split_ifs <;> omega
  · unfold android_ab_compare_slots
    split_ifs <;> omega
  · rw [compare_neg_iff]
    exact ranks_higher_irrefl a
  · intro c hab hbc
    rw [compare_neg_iff] at hab hbc ⊢
    unfold ranks_higher at *
    omega

/-! ## Claims about re-initialisation, eligibility and the decrement -/

/-- C25. For a loaded block whose checksum does not match, whatever else it
holds (the slot array has at least one slot, as every C array has):
`android_ab_select` returns slot 0 and calls the store on a block with the
current magic and version, `nb_slot` the size of the slot array, slot 0 equal
to {priority 15, tries_remaining 6, not successful, not corrupted}, every other
slot equal to {15, 7, not successful, not corrupted}, suffix `a` and three zero
bytes, `reserved0` and `reserved1` zero, and `crc32_le` the checksum of the
bytes before it. -/
theorem crc_mismatch_returns_slot_zero {Dev : Type} (cfg : ab_config)
    (crc32 : Nat → List Nat → Nat) (ops : blk_ops Dev) (dev : Dev) (part : disk_partition_t)
    (buf : abc_data_block)
    (hload : android_boot_control_create_from_disk cfg ops dev part = some buf)
    (hcrc : buf.abc.crc32_le ≠ android_boot_control_compute_crc crc32 buf.abc)
    (hcap : 0 < buf.abc.slot_info.length) :
    (android_ab_select cfg crc32 ops dev part).1 = 0 ∧
    (android_ab_select_loaded cfg crc32 buf).stored = true ∧
    (android_ab_select cfg crc32 ops dev part).2 =
      (android_boot_control_store cfg ops (android_ab_select_loaded cfg crc32 buf).buf
        dev part).2 ∧
    (android_ab_select_loaded cfg crc32 buf).buf.abc.magic = cfg.ANDROID_BOOT_CTRL_MAGIC ∧
    (android_ab_select_loaded cfg crc32 buf).buf.abc.version = cfg.ANDROID_BOOT_CTRL_VERSION ∧
    (android_ab_select_loaded cfg crc32 buf).buf.abc.nb_slot = buf.abc.slot_info.length ∧
    (android_ab_select_loaded cfg crc32 buf).buf.abc.slot_info.length =
      buf.abc.slot_info.length ∧
    slot_at (android_ab_select_loaded cfg crc32 buf).buf.abc 0 =
      { priority := 15, tries_remaining := 6, successful_boot := 0, verity_corrupted := 0,
        reserved := 0 } ∧
    (∀ i, 0 < i → i < buf.abc.slot_info.length →
      slot_at (android_ab_select_loaded cfg crc32 buf).buf.abc i =
        { priority := 15, tries_remaining := 7, successful_boot := 0, verity_corrupted := 0,
          reserved := 0 }) ∧
    (android_ab_select_loaded cfg crc32 buf).buf.abc.slot_suffix = [97, 0, 0, 0] ∧
    (android_ab_select_loaded cfg crc32 buf).buf.abc.reserved0 =
      List.replicate buf.abc.reserved0.length 0 ∧
    (android_ab_select_loaded cfg crc32 buf).buf.abc.reserved1 =
      List.replicate buf.abc.reserved1.length 0 ∧
    (android_ab_select_loaded cfg crc32 buf).buf.abc.crc32_le =
      crc32 0 (bytes_before_crc (android_ab_select_loaded cfg crc32 buf).buf.abc) := by
  have hcrc' : ¬ crc_valid crc32 buf.abc := hcrc
  have hl := loaded_of_crc_mismatch cfg crc32 buf hcrc'
  have hloop : select_loop (android_boot_control_default cfg crc32 buf.abc) = 0 := by
    rw [select_loop_default, if_neg (by omega)]
  have hf := select_from_frame crc32 buf (android_boot_control_default cfg crc32 buf.abc) true
  rw [← hl] at hf
  have hst : (android_ab_select_loaded cfg crc32 buf).stored = true := by
    rw [hl, select_from_stored]; simp
  have hinfo := slot_info_of_crc_mismatch cfg crc32 buf hcrc'
  have hret : (android_ab_select_loaded cfg crc32 buf).ret = 0 := by
    rw [hl, select_from_ret, hloop]; rfl
  have hsuf : (android_ab_select_loaded cfg crc32 buf).buf.abc.slot_suffix = [97, 0, 0, 0] := by
    rw [hl, select_from_slot_suffix _ _ _ _ (by rw [hloop]), hloop]
    exact suffix_of_nat 0
  refine ⟨?_, hst, ?_, hf.2.1, hf.2.2.1, ?_, ?_, ?_, ?_, hsuf, hf.2.2.2.2.1, hf.2.2.2.2.2.1,
    (stored_block_valid cfg crc32 buf hst).1.1⟩
  · rw [select_ret_of_load cfg crc32 ops dev part buf hload]; exact hret
  · rw [select_of_load cfg crc32 ops dev part buf hload, if_pos hst]
  · rw [hf.2.2.2.1]; rfl
  · rw [hinfo]; simp
  · unfold slot_at
    rw [hinfo, List.getD_eq_getElem?_getD, List.getElem?_set_self (by simpa using hcap)]
    rfl
  · intro i hi0 hi
    unfold slot_at
    rw [hinfo, List.getD_eq_getElem?_getD, List.getElem?_set_ne (by omega),
      List.getElem?_replicate]
    simp [hi]
    rfl

/-- C25 at `block_badcrc`: slot 0 is returned and slot 0 of the block stored
has six tries. -/
theorem crc_mismatch_returns_slot_zero_witness :
    android_boot_control_create_from_disk cfg0 region_ops block_badcrc part0 =
      some block_badcrc ∧
    block_badcrc.abc.crc32_le ≠ android_boot_control_compute_crc sum32 block_badcrc.abc ∧
    (android_ab_select cfg0 sum32 region_ops block_badcrc part0).1 = 0 ∧
    (android_ab_select_loaded cfg0 sum32 block_badcrc).stored = true :=
  ⟨by decide, by decide,
    (crc_mismatch_returns_slot_zero cfg0 sum32 region_ops block_badcrc part0 block_badcrc
      (by decide) (by decide) (by decide)).1,
    (crc_mismatch_returns_slot_zero cfg0 sum32 region_ops block_badcrc part0 block_badcrc
      (by decide) (by decide) (by decide)).2.1⟩

/-- C26 on the code, at `block_spent`: slot 0 has the highest priority, is not
marked corrupted and is marked successful, with no tries left; the comment of
lines 193-195 makes it the slot to select, and the code returns slot 1. -/
theorem successful_slot_without_tries_is_skipped :
    android_boot_control_create_from_disk cfg0 region_ops block_spent part0 =
      some block_spent ∧
    valid_block cfg0 sum32 block_spent.abc ∧
    (slot_at block_spent.abc 0).verity_corrupted = 0 ∧
    (slot_at block_spent.abc 0).successful_boot = 1 ∧
    (slot_at block_spent.abc 0).tries_remaining = 0 ∧
    (slot_at block_spent.abc 1).priority < (slot_at block_spent.abc 0).priority ∧
    (android_ab_select cfg0 sum32 region_ops block_spent part0).1 = 1 := by
  decide

/-- C27. In a valid block a slot with priority 0, tries left and
`verity_corrupted` clear is a candidate: the loop takes it when no slot is
chosen yet; and it is the slot returned when no other slot is bootable. -/
theorem priority_zero_slot_is_candidate {Dev : Type} (cfg : ab_config)
    (crc32 : Nat → List Nat → Nat) (ops : blk_ops Dev) (dev : Dev) (part : disk_partition_t)
    (buf : abc_data_block)
    (hload : android_boot_control_create_from_disk cfg ops dev part = some buf)
    (hv : valid_block cfg crc32 buf.abc) (i : Nat)
    (hi : i < min buf.abc.nb_slot buf.abc.slot_info.length)
    (_hp : (slot_at buf.abc i).priority = 0)
    (ht : 0 < (slot_at buf.abc i).tries_remaining)
    (hc : (slot_at buf.abc i).verity_corrupted = 0) :
    select_step buf.abc (-1) i = (i : Int) ∧
    0 ≤ (android_ab_select cfg crc32 ops dev part).1 ∧
    ((∀ j, bootable buf.abc j → j = i) →
      (android_ab_select cfg crc32 ops dev part).1 = (i : Int)) := by
  have hb : bootable buf.abc i := (bootable_iff _ _).mpr ⟨hi, hc, ht⟩
  rw [select_ret_of_load cfg crc32 ops dev part buf hload]
  refine ⟨select_step_first ⟨hc, ht⟩, ?_, ?_⟩
  · rcases loaded_ret_cases cfg crc32 buf hv with ⟨_, hnone⟩ | ⟨k, hr, _, _, _⟩
    · exact absurd hb (hnone i)
    · rw [hr]; omega
  · intro honly
    rcases loaded_ret_cases cfg crc32 buf hv with ⟨_, hnone⟩ | ⟨k, hr, hk, _, _⟩
    · exact absurd hb (hnone i)
    · rw [hr, honly k hk]

/-- C27 at `block_prio0`: slot 1 has priority 0 and is the only bootable slot;
it is returned. -/
theorem priority_zero_slot_is_candidate_witness :
    android_boot_control_create_from_disk cfg0 region_ops block_prio0 part0 =
      some block_prio0 ∧
    valid_block cfg0 sum32 block_prio0.abc ∧
    (slot_at block_prio0.abc 1).priority = 0 ∧
    (android_ab_select cfg0 sum32 region_ops block_prio0 part0).1 = ((1 : Nat) : Int) :=
  ⟨by decide, by decide, by decide,
    (priority_zero_slot_is_candidate cfg0 sum32 region_ops block_prio0 part0 block_prio0
      (by decide) (by decide) 1 (by decide) (by decide) (by decide) (by decide)).2.2
      (fun j hj => by
        have hlt : j < 2 := hj.1
        have h01 : j = 0 ∨ j = 1 := by omega
        rcases h01 with h | h
        · subst h
          exact absurd hj (by decide)
        · exact h)⟩

/-- C28. The slot decremented has at least one try beforehand, in every
execution: at the end of the loop `slot` is -1 or a slot with tries left in
the block the loop ran on.  For a block with a valid checksum no slot has more
tries after the call than before, and a slot with fewer is the slot returned,
with exactly one less. -/
theorem decrement_never_underflows {Dev : Type} (cfg : ab_config)
    (crc32 : Nat → List Nat → Nat) (ops : blk_ops Dev) (dev : Dev) (part : disk_partition_t)
    (buf : abc_data_block)
    (hload : android_boot_control_create_from_disk cfg ops dev part = some buf) :
    (0 ≤ select_loop (clamped (checked cfg crc32 buf.abc)) →
      1 ≤ (slot_at (clamped (checked cfg crc32 buf.abc))
        (select_loop (clamped (checked cfg crc32 buf.abc))).toNat).tries_remaining) ∧
    ((android_ab_select cfg crc32 ops dev part).1 = -1 ∨
      ∃ store_needed : Bool, android_ab_select_loaded cfg crc32 buf =
        android_ab_select_tail crc32 buf (clamped (checked cfg crc32 buf.abc)) store_needed) ∧
    (buf.abc.crc32_le = android_boot_control_compute_crc crc32 buf.abc →
      ∀ i : Nat,
        (slot_at (android_ab_select_loaded cfg crc32 buf).buf.abc i).tries_remaining ≤
          (slot_at buf.abc i).tries_remaining ∧
        ((slot_at (android_ab_select_loaded cfg crc32 buf).buf.abc i).tries_remaining <
            (slot_at buf.abc i).tries_remaining →
          (android_ab_select cfg crc32 ops dev part).1 = (i : Int) ∧
          (slot_at (android_ab_select_loaded cfg crc32 buf).buf.abc i).tries_remaining + 1 =
            (slot_at buf.abc i).tries_remaining)) := by
  rw [select_ret_of_load cfg crc32 ops dev part buf hload]
  refine ⟨fun h0 => ?_, ?_, fun hcrc i => ?_⟩
  · rcases select_loop_clamped_cases (checked cfg crc32 buf.abc) with ⟨hl, _⟩ | ⟨k, hl, hk⟩
    · rw [hl] at h0; omega
    · rw [hl, Int.toNat_ofNat, slot_at_congr (clamped_slot_info _) k]
      exact hk.2.2.2
  · by_cases hpass : (checked cfg crc32 buf.abc).magic = cfg.ANDROID_BOOT_CTRL_MAGIC ∧
        (checked cfg crc32 buf.abc).version ≤ cfg.ANDROID_BOOT_CTRL_VERSION
    · exact Or.inr (loaded_of_checks_pass cfg crc32 buf hpass.1 hpass.2)
    · exact Or.inl (loaded_ret_of_checks_fail cfg crc32 buf hpass)
  · rcases loaded_of_crc_valid cfg crc32 buf hcrc with ⟨_, h⟩ | ⟨hv, _⟩
    · rw [h]
      exact ⟨le_refl _, fun hlt => absurd hlt (lt_irrefl _)⟩
    · rw [loaded_slot_at_of_valid cfg crc32 buf hv i]
      by_cases hw : (android_ab_select_loaded cfg crc32 buf).ret = (i : Int) ∧
          (slot_at buf.abc i).successful_boot = 0
      · rw [if_pos hw]
        have hpos := (loop_of_ret cfg crc32 buf hv i hw.1).2.2.2.2
        have hd : (tries_decrement (slot_at buf.abc i)).tries_remaining =
            (slot_at buf.abc i).tries_remaining - 1 := rfl
        rw [hd]
        exact ⟨by omega, fun _ => ⟨hw.1, by omega⟩⟩
      · rw [if_neg hw]
        exact ⟨le_refl _, fun hlt => absurd hlt (lt_irrefl _)⟩

/-- C28 at `block_ab`: slot 1 goes from five tries to four, slot 0 keeps its
three. -/
theorem decrement_never_underflows_witness :
    android_boot_control_create_from_disk cfg0 region_ops block_ab part0 = some block_ab ∧
    block_ab.abc.crc32_le = android_boot_control_compute_crc sum32 block_ab.abc ∧
    (slot_at (android_ab_select_loaded cfg0 sum32 block_ab).buf.abc 1).tries_remaining = 4 ∧
    (slot_at (android_ab_select_loaded cfg0 sum32 block_ab).buf.abc 0).tries_remaining ≤
      (slot_at block_ab.abc 0).tries_remaining :=
  ⟨by decide, by decide, by decide,
    ((decrement_never_underflows cfg0 sum32 region_ops block_ab part0 block_ab
      (by decide)).2.2 (by decide) 0).1⟩

/-! ## Round-robin from the default state -/

theorem rr_state_of_default (cfg : ab_config) (crc32 : Nat → List Nat → Nat)
    (buf : abc_data_block) (abc0 : android_bootloader_control)
    (hdef : buf.abc = android_boot_control_default cfg crc32 abc0) :
    rr_state cfg crc32 abc0.slot_info.length 0 0 buf := by
  have hinfo : buf.abc.slot_info = List.replicate abc0.slot_info.length default_metadata := by
    rw [hdef, default_slot_info]
  refine ⟨?_, ?_, ?_, ?_⟩
  · rw [hdef]
    exact ⟨default_crc_valid cfg crc32 abc0, rfl, le_refl _⟩
  · rw [hdef, default_nb_slot]
  · rw [hinfo]; simp
  · intro i hi
    rw [slot_at_replicate buf.abc _ _ hinfo i hi]
    rfl

/-- One call in the round-robin state: slot `m` is returned and loses a try. -/
theorem rr_step (cfg : ab_config) (crc32 : Nat → List Nat → Nat) (C q m : Nat)
    (b : abc_data_block) (h : rr_state cfg crc32 C q m b) (hm : m < C) (hq : q < 7) :
    (android_ab_select_loaded cfg crc32 b).ret = (m : Int) ∧
    rr_state cfg crc32 C q (m + 1) (android_ab_select_loaded cfg crc32 b).buf := by
  obtain ⟨hv, hnb, hlen, hslots⟩ := h
  have hboot : ∀ i, i < C → ¬ i < m → bootable b.abc i := by
    intro i hi him
    refine ⟨by omega, by omega, ?_, ?_⟩
    · rw [hslots i hi]
    · rw [hslots i hi]
      show 0 < 7 - q - (if i < m then 1 else 0)
      rw [if_neg him]
      omega
  have htries : ∀ i, i < C → (slot_at b.abc i).tries_remaining =
      7 - q - (if i < m then 1 else 0) := fun i hi => by rw [hslots i hi]
  have hprio : ∀ i, i < C → (slot_at b.abc i).priority = 15 ∧
      (slot_at b.abc i).successful_boot = 0 := fun i hi => by rw [hslots i hi]; exact ⟨rfl, rfl⟩
  have hret : (android_ab_select_loaded cfg crc32 b).ret = (m : Int) := by
    rcases loaded_ret_cases cfg crc32 b hv with ⟨_, hnone⟩ | ⟨k, hr, hk, hbest, hleast⟩
    · exact absurd (hboot m hm (lt_irrefl m)) (hnone m)
    · have hkC : k < C := by have := hk.1; omega
      have h1 := hbest m (hboot m hm (lt_irrefl m))
      have tk := htries k hkC
      have tm := htries m hm
      have pk := hprio k hkC
      have pm := hprio m hm
      rw [if_neg (lt_irrefl m)] at tm
      have hkm : ¬ k < m := by
        intro hlt
        rw [if_pos hlt] at tk
        apply h1
        unfold ranks_higher
        omega
      have hmk : ¬ m < k := by
        intro hlt
        have h2 := hleast m hlt (hboot m hm (lt_irrefl m))
        rw [if_neg hkm] at tk
        unfold ranks_higher at h2
        omega
      have : k = m := by omega
      rw [hr, this]
  have hslot := loaded_slot_at_of_valid cfg crc32 b hv
  have hnew : ∀ i, i < C → slot_at (android_ab_select_loaded cfg crc32 b).buf.abc i =
      { priority := 15, tries_remaining := 7 - q - (if i < m + 1 then 1 else 0),
        successful_boot := 0, verity_corrupted := 0, reserved := 0 } := by
    intro i hi
    rw [hslot i]
    by_cases him : i = m
    · subst him
      rw [if_pos ⟨hret, (hprio i hi).2⟩, hslots i hi, if_neg (lt_irrefl i),
        if_pos (Nat.lt_succ_self i)]
      rfl
    · rw [if_neg (fun hh => him (by have := hh.1; rw [hret] at this; omega)), hslots i hi]
      by_cases hlt : i < m
      · rw [if_pos hlt, if_pos (by omega)]
      · rw [if_neg hlt, if_neg (by omega)]
  have hst : (android_ab_select_loaded cfg crc32 b).stored = true := by
    rw [stored_iff_changed]
    intro heq
    have h1 := hnew m hm
    rw [heq, hslots m hm, if_neg (lt_irrefl m), if_pos (Nat.lt_succ_self m)] at h1
    have h2 : (7 - q - 0 : Nat) = 7 - q - 1 := congrArg android_slot_metadata.tries_remaining h1
    omega
  obtain ⟨hnb', hlen'⟩ := loaded_nb_slot_of_valid cfg crc32 b hv
  exact ⟨hret, (stored_block_valid cfg crc32 b hst).1, by omega, by omega, hnew⟩

theorem rr_wrap (cfg : ab_config) (crc32 : Nat → List Nat → Nat) (C q : Nat)
    (b : abc_data_block) (h : rr_state cfg crc32 C q C b) : rr_state cfg crc32 C (q + 1) 0 b := by
  obtain ⟨hv, hnb, hlen, hslots⟩ := h
  refine ⟨hv, hnb, hlen, fun i hi => ?_⟩
  rw [hslots i hi, if_pos hi, if_neg (Nat.not_lt_zero i)]
  have : 7 - q - 1 = 7 - (q + 1) - 0 := by omega
  rw [this]

theorem slot_at_out_of_range (abc : android_bootloader_control) (i : Nat)
    (hi : abc.slot_info.length ≤ i) : (slot_at abc i).tries_remaining = 0 := by
  unfold slot_at
  rw [List.getD_eq_getElem?_getD, List.getElem?_eq_none hi]
  rfl

theorem rr_all_spent (cfg : ab_config) (crc32 : Nat → List Nat → Nat) (C q m : Nat)
    (b : abc_data_block) (h : rr_state cfg crc32 C q m b) (hdone : C = 0 ∨ (q = 7 ∧ m = 0)) :
    all_spent crc32 b := by
  obtain ⟨hv, hnb, hlen, hslots⟩ := h
  refine ⟨hv.1, fun i => ?_⟩
  by_cases hi : i < C
  · rcases hdone with h0 | ⟨h7, hm0⟩
    · omega
    · rw [hslots i hi, h7, hm0]
      rfl
  · exact slot_at_out_of_range b.abc i (by omega)

/-- With no try left anywhere, the call returns -1 and leaves such a block. -/
theorem all_spent_step (cfg : ab_config) (crc32 : Nat → List Nat → Nat)
    (b : abc_data_block) (h : all_spent crc32 b) :
    (android_ab_select_loaded cfg crc32 b).ret = -1 ∧
    all_spent crc32 (android_ab_select_loaded cfg crc32 b).buf := by
  obtain ⟨hcrc, hall⟩ := h
  constructor
  · by_cases hv : valid_block cfg crc32 b.abc
    · rcases loaded_ret_cases cfg crc32 b hv with ⟨hr, _⟩ | ⟨k, _, hk, _, _⟩
      · exact hr
      · have := hk.2.2.2
        rw [hall k] at this
        omega
    · exact loaded_ret_of_crc_valid_not_valid cfg crc32 b hcrc hv
  · exact ⟨loaded_crc_valid_preserved cfg crc32 b hcrc,
      fun i => (exhausted_step cfg crc32 i b hcrc (hall i)).2.2⟩

theorem div_mod_succ (C k : Nat) (hC : 0 < C) :
    (k % C + 1 < C ∧ (k + 1) / C = k / C ∧ (k + 1) % C = k % C + 1) ∨
    (k % C + 1 = C ∧ (k + 1) / C = k / C + 1 ∧ (k + 1) % C = 0) := by
  have hlt := Nat.mod_lt k hC
  have hk := Nat.div_add_mod k C
  by_cases h : k % C + 1 < C
  · left
    refine ⟨h, ?_⟩
    exact (Nat.div_mod_unique hC).mpr ⟨by omega, h⟩
  · right
    have he : k % C + 1 = C := by omega
    refine ⟨he, ?_⟩
    refine (Nat.div_mod_unique hC).mpr ⟨?_, hC⟩
    rw [Nat.mul_succ]
    omega

/-- After `k` calls, `k` up to `7 * C`, the stored block is in the round-robin
state of quotient and remainder of `k` by `C`. -/
theorem rr_iter {Dev : Type} (cfg : ab_config) (crc32 : Nat → List Nat → Nat)
    (ops : blk_ops Dev) (dev : Dev) (part : disk_partition_t) (buf : abc_data_block)
    (hdev : store_then_load cfg ops part)
    (hload : android_boot_control_create_from_disk cfg ops dev part = some buf)
    (C : Nat) (hC : 0 < C) (h0 : rr_state cfg crc32 C 0 0 buf) (k : Nat) (hk : k ≤ 7 * C) :
    ∃ b, android_boot_control_create_from_disk cfg ops
        (select_iter cfg crc32 ops part k dev) part = some b ∧
      rr_state cfg crc32 C (k / C) (k % C) b := by
  induction k with
  | zero =>
    refine ⟨buf, hload, ?_⟩
    rw [Nat.zero_div, Nat.zero_mod]
    exact h0
  | succ n ih =>
    obtain ⟨b, hb, hs⟩ := ih (by omega)
    have hq : n / C < 7 := Nat.div_lt_of_lt_mul (by omega)
    have hm : n % C < C := Nat.mod_lt n hC
    have hstep := (rr_step cfg crc32 C (n / C) (n % C) b hs hm hq).2
    refine ⟨(android_ab_select_loaded cfg crc32 b).buf, ?_, ?_⟩
    · rw [select_iter_succ]
      exact load_after_select cfg crc32 ops _ part b hdev hb
    · rcases div_mod_succ C n hC with ⟨_, hd, hr⟩ | ⟨he, hd, hr⟩
      · rw [hd, hr]; exact hstep
      · rw [hd, hr]
        rw [he] at hstep
        exact rr_wrap cfg crc32 C (n / C) _ hstep

theorem all_spent_iter {Dev : Type} (cfg : ab_config) (crc32 : Nat → List Nat → Nat)
    (ops : blk_ops Dev) (dev : Dev) (part : disk_partition_t)
    (hdev : store_then_load cfg ops part) (M : Nat)
    (hM : ∃ b, android_boot_control_create_from_disk cfg ops
        (select_iter cfg crc32 ops part M dev) part = some b ∧ all_spent crc32 b)
    (k : Nat) (hk : M ≤ k) :
    ∃ b, android_boot_control_create_from_disk cfg ops
        (select_iter cfg crc32 ops part k dev) part = some b ∧ all_spent crc32 b := by
  induction k with
  | zero =>
    have : M = 0 := by omega
    rw [this] at hM
    exact hM
  | succ n ih =>
    by_cases hn : M ≤ n
    · obtain ⟨b, hb, hs⟩ := ih hn
      refine ⟨(android_ab_select_loaded cfg crc32 b).buf, ?_, (all_spent_step cfg crc32 b hs).2⟩
      rw [select_iter_succ]
      exact load_after_select cfg crc32 ops _ part b hdev hb
    · have : M = n + 1 := by omega
      rw [this] at hM
      exact hM

/-- C23. Start from storage that holds the default control block of `C` slots,
on a device where every store succeeds and a load returns the block last
stored.  Then call number `k`, for `k` from 0 to `7 * C - 1`, returns slot
`k mod C`, and every later call returns -1. -/
theorem round_robin_from_default {Dev : Type} (cfg : ab_config)
    (crc32 : Nat → List Nat → Nat) (ops : blk_ops Dev) (dev : Dev) (part : disk_partition_t)
    (buf : abc_data_block) (abc0 : android_bootloader_control)
    (hdev : store_then_load cfg ops part)
    (hload : android_boot_control_create_from_disk cfg ops dev part = some buf)
    (hdef : buf.abc = android_boot_control_default cfg crc32 abc0) :
    buf.abc.slot_info.length = abc0.slot_info.length ∧
    (∀ k, k < 7 * buf.abc.slot_info.length →
      (android_ab_select cfg crc32 ops (select_iter cfg crc32 ops part k dev) part).1 =
        ((k % buf.abc.slot_info.length : Nat) : Int)) ∧
    (∀ k, 7 * buf.abc.slot_info.length ≤ k →
      (android_ab_select cfg crc32 ops (select_iter cfg crc32 ops part k dev) part).1 = -1) := by
  have h0 := rr_state_of_default cfg crc32 buf abc0 hdef
  have hlen : buf.abc.slot_info.length = abc0.slot_info.length := h0.2.2.1
  rw [hlen]
  refine ⟨rfl, fun k hk => ?_, fun k hk => ?_⟩
  · have hC : 0 < abc0.slot_info.length := by omega
    obtain ⟨b, hb, hs⟩ := rr_iter cfg crc32 ops dev part buf hdev hload _ hC h0 k (by omega)
    rw [select_ret_of_load cfg crc32 ops _ part b hb]
    exact (rr_step cfg crc32 _ _ _ b hs (Nat.mod_lt k hC)
      (Nat.div_lt_of_lt_mul (by omega))).1
  · have hstart : ∃ b, android_boot_control_create_from_disk cfg ops
        (select_iter cfg crc32 ops part (7 * abc0.slot_info.length) dev) part = some b ∧
        all_spent crc32 b := by
      by_cases hC : 0 < abc0.slot_info.length
      · obtain ⟨b, hb, hs⟩ := rr_iter cfg crc32 ops dev part buf hdev hload _ hC h0
          (7 * abc0.slot_info.length) (le_refl _)
        refine ⟨b, hb, rr_all_spent cfg crc32 _ _ _ b hs (Or.inr ⟨?_, ?_⟩)⟩
        · exact Nat.mul_div_cancel 7 hC
        · exact Nat.mul_mod_left 7 _
      · have hz : abc0.slot_info.length = 0 := by omega
        rw [hz]
        refine ⟨buf, hload, rr_all_spent cfg crc32 _ 0 0 buf h0 (Or.inl hz)⟩
    obtain ⟨b, hb, hs⟩ := all_spent_iter cfg crc32 ops dev part hdev _ hstart k hk
    rw [select_ret_of_load cfg crc32 ops _ part b hb]
    exact (all_spent_step cfg crc32 b hs).1

/-- C23 at `block_default`, two slots: call 3 returns slot 1, call 14 returns
-1. -/
theorem round_robin_from_default_witness :
    store_then_load cfg0 region_ops part0 ∧
    android_boot_control_create_from_disk cfg0 region_ops block_default part0 =
      some block_default ∧
    block_default.abc.slot_info.length = 2 ∧
    (android_ab_select cfg0 sum32 region_ops
      (select_iter cfg0 sum32 region_ops part0 3 block_default) part0).1 =
      ((3 % block_default.abc.slot_info.length : Nat) : Int) ∧
    (android_ab_select cfg0 sum32 region_ops
      (select_iter cfg0 sum32 region_ops part0 14 block_default) part0).1 = -1 :=
  ⟨fun _ _ => ⟨rfl, rfl⟩, by decide, by decide,
    (round_robin_from_default cfg0 sum32 region_ops block_default part0 block_default
      block_ab.abc (fun _ _ => ⟨rfl, rfl⟩) (by decide) rfl).2.1 3 (by decide),
    (round_robin_from_default cfg0 sum32 region_ops block_default part0 block_default
      block_ab.abc (fun _ _ => ⟨rfl, rfl⟩) (by decide) rfl).2.2 14 (by decide)⟩

end AndroidAB
